import Mathlib

/-!
# shoya-go: the request authenticator

A shallow embedding of `middleware.go` (the API-key, login, session and
second-factor middlewares and the Basic-Auth header parser) together with
the properties of the authentication chain.

Go strings are byte sequences; they are embedded as lists of natural
numbers, each below 256.  The ambient globals of the Go program (the
configuration, the database handle, the session helpers, the clock) are
collected in an explicit environment `Env`.
-/

namespace Shoya

/-! ## Data model -/

/-- A Go `string`: a sequence of bytes. -/
abbrev GoString := List Nat

/-- Every element of the string is a byte. -/
def IsBytes (s : GoString) : Prop := ∀ b ∈ s, b < 256

instance (s : GoString) : Decidable (IsBytes s) := by
  unfold IsBytes; infer_instance

/-- Go `error` values that occur in the authentication chain. -/
inductive GoError where
  /-- `base64.CorruptInputError` -/
  | corruptInput
  /-- `url.EscapeError` -/
  | escape
  /-- any other error (database, session store, password hashing), by code -/
  | other (code : Nat)
  deriving DecidableEq, Repr

/-- The fields of the `User` model that the embedded code reads or writes. -/
structure User where
  ID : GoString := []
  Username : GoString := []
  MfaEnabled : Bool := false
  DeveloperType : GoString := []
  Tags : List GoString := []
  deriving DecidableEq, Repr

/-- A response body handed to `c.JSON`.  The three `Err...Response` values are
package-level variables declared outside the embedded files; they are kept
as named constants. -/
inductive Body where
  | ErrMissingCredentialsResponse
  | ErrInvalidCredentialsResponse
  | ErrTwoFactorAuthenticationRequiredResponse
  /-- a `fiber.Map` literal with string values -/
  | fiberMap (fields : List (String × String))
  deriving DecidableEq, Repr

/-- A `fiber.Cookie` as built by the middlewares (`Expires` in seconds). -/
structure Cookie where
  Name : String
  Value : GoString
  Expires : Option Nat := none
  SameSite : String
  deriving DecidableEq, Repr

/-- A value stored in the per-request `Locals` bag (`interface{}` in Go). -/
inductive LocalValue where
  | str (s : GoString)
  | user (u : User)
  deriving DecidableEq, Repr

/-- The response under construction. -/
structure Response where
  status : Nat := 200
  body : Option Body := none
  cookies : List Cookie := []
  deriving DecidableEq, Repr

/-- The part of `*fiber.Ctx` used by the middlewares. -/
structure Ctx where
  /-- `c.Query(name)`; the empty string when the parameter is absent -/
  query : String → GoString
  /-- `c.Cookies(name)`; the empty string when the cookie is absent -/
  cookies : String → GoString
  /-- `c.Get(name)`; the empty string when the header is absent -/
  header : String → GoString
  /-- `c.IP()` -/
  ip : GoString
  /-- `c.Locals(name)`; `none` is Go's `nil` -/
  locals : String → Option LocalValue
  resp : Response

/-- The ambient globals the middlewares consult. -/
structure Env where
  /-- `ApiConfiguration.ApiKey.Get()` -/
  apiKey : GoString
  /-- `DB.Preload(clause.Associations).First(&u)`: the loaded record or the error -/
  dbFirst : User → Except GoError User
  /-- `u.CheckPassword(password)` -/
  checkPassword : User → GoString → Bool × Option GoError
  /-- `CreateAuthCookie(&u, ip, isMobile)` -/
  createAuthCookie : User → GoString → Bool → Except GoError GoString
  /-- `ValidateAuthCookie(token, ip, isMobile)`: the user ID or the error -/
  validateAuthCookie : GoString → GoString → Bool → Except GoError GoString
  /-- `time.Now()`, in seconds -/
  now : Nat

/-- Calls a middleware makes to its collaborators, in order. -/
inductive Call where
  | dbFirst (u : User)
  | checkPassword (u : User) (password : GoString)
  | createAuthCookie (u : User) (ip : GoString)
  | validateAuthCookie (token : GoString) (ip : GoString)
  | println (s : GoString)
  deriving DecidableEq, Repr

/-- How a handler ends: it called `c.Next()`, it returned after writing a
response, or it panicked. -/
inductive Flow where
  | next
  | done
  | panic
  deriving DecidableEq, Repr

/-- The result of running one middleware. -/
structure Outcome where
  ctx : Ctx
  flow : Flow
  trace : List Call := []

/-- `c.Status(code).JSON(body)` followed by `return`. -/
def Ctx.reply (c : Ctx) (code : Nat) (b : Body) : Ctx :=
  { c with resp := { c.resp with status := code, body := some b } }

/-- `c.Locals(key, value)`. -/
def Ctx.setLocal (c : Ctx) (key : String) (v : LocalValue) : Ctx :=
  { c with locals := fun k => if k = key then some v else c.locals k }

/-- `c.Cookie(&cookie)`. -/
def Ctx.setCookie (c : Ctx) (ck : Cookie) : Ctx :=
  { c with resp := { c.resp with cookies := c.resp.cookies ++ [ck] } }

/-! ## Library functions used by the parser -/

/-- The string `"Basic"`. -/
def basicScheme : GoString := [66, 97, 115, 105, 99]

/-- The byte `' '`. -/
def spaceByte : Nat := 32

/-- The byte `':'`. -/
def colonByte : Nat := 58

/-- The byte `'%'`. -/
def percentByte : Nat := 37

/-- The byte `'='`, the padding character of `base64.StdEncoding`. -/
def padByte : Nat := 61

/-- `strings.Cut` at a one-byte separator: the text before and after its first
occurrence. -/
def cut (sep : Nat) : GoString → Option (GoString × GoString)
  | [] => none
  | c :: rest =>
    if c = sep then some ([], rest)
    else (cut sep rest).map fun p => (c :: p.1, p.2)

/-- `strings.SplitN(s, sep, 2)` for a one-byte separator. -/
def SplitN2 (s : GoString) (sep : Nat) : List GoString :=
  match cut sep s with
  | none => [s]
  | some (a, b) => [a, b]

/-- The decode map of `base64.StdEncoding`: the 6-bit value of an alphabet
byte, `none` where Go's table holds `0xff`. -/
def decodeMap (c : Nat) : Option Nat :=
  if 65 ≤ c ∧ c ≤ 90 then some (c - 65)
  else if 97 ≤ c ∧ c ≤ 122 then some (c - 71)
  else if 48 ≤ c ∧ c ≤ 57 then some (c + 4)
  else if c = 43 then some 62
  else if c = 47 then some 63
  else none

/-- Skip `'\n'` and `'\r'`. -/
def skipNewlines : GoString → GoString
  | [] => []
  | c :: rest => if c = 10 ∨ c = 13 then skipNewlines rest else c :: rest

/-- The bytes of one quantum: `dbuf` holds the `dlen` six-bit values read (the
rest of Go's 4-byte buffer is zero), and `dlen - 1` bytes come out.  On
six-bit fields Go's `<<` and `|` are the products and sums below. -/
def quantumBytes (dbuf : List Nat) : GoString :=
  let val := dbuf.getD 0 0 * 262144 + dbuf.getD 1 0 * 4096 + dbuf.getD 2 0 * 64 + dbuf.getD 3 0
  [val / 65536 % 256, val / 256 % 256, val % 256].take (dbuf.length - 1)

/-- The loop of `(*Encoding).Decode` with `decodeQuantum` inlined, for
`StdEncoding` (padded, not strict): `dbuf` is the quantum being read and `out`
the bytes decoded so far. -/
def decodeLoop : GoString → List Nat → GoString → Except GoError GoString
  | [], dbuf, out => if dbuf.length = 0 then .ok out else .error .corruptInput
  | c :: rest, dbuf, out =>
    match decodeMap c with
    | some v =>
      if dbuf.length = 3 then decodeLoop rest [] (out ++ quantumBytes (dbuf ++ [v]))
      else decodeLoop rest (dbuf ++ [v]) out
    | none =>
      if c = 10 ∨ c = 13 then decodeLoop rest dbuf out
      else if c ≠ padByte then .error .corruptInput
      else if dbuf.length < 2 then .error .corruptInput
      else if dbuf.length = 2 then
        match skipNewlines rest with
        | [] => .error .corruptInput
        | d :: rest2 =>
          if d ≠ padByte then .error .corruptInput
          else if skipNewlines rest2 ≠ [] then .error .corruptInput
          else .ok (out ++ quantumBytes dbuf)
      else if skipNewlines rest ≠ [] then .error .corruptInput
      else .ok (out ++ quantumBytes dbuf)

/-- `base64.StdEncoding.DecodeString`. -/
def DecodeString (s : GoString) : Except GoError GoString :=
  decodeLoop s [] []

/-- `ishex` of `net/url`. -/
def ishex (c : Nat) : Bool :=
  (48 ≤ c && c ≤ 57) || (97 ≤ c && c ≤ 102) || (65 ≤ c && c ≤ 70)

/-- `unhex` of `net/url`. -/
def unhex (c : Nat) : Nat :=
  if 48 ≤ c ∧ c ≤ 57 then c - 48
  else if 97 ≤ c ∧ c ≤ 102 then c - 97 + 10
  else if 65 ≤ c ∧ c ≤ 70 then c - 65 + 10
  else 0

/-- The first pass of `unescape`: every `%` must be followed by two hex
digits. -/
def unescapeCheck : GoString → Bool
  | [] => true
  | c :: rest =>
    if c = percentByte then
      match rest with
      | a :: b :: rest2 => if ishex a && ishex b then unescapeCheck rest2 else false
      | _ => false
    else unescapeCheck rest

/-- The second pass of `unescape` in query-component mode: `%XX` becomes the
byte `XX` and `+` becomes a space. -/
def unescapeBuild : GoString → GoString
  | [] => []
  | c :: rest =>
    if c = percentByte then
      match rest with
      | a :: b :: rest2 => (unhex a * 16 + unhex b) :: unescapeBuild rest2
      | _ => []
    else if c = 43 then 32 :: unescapeBuild rest
    else c :: unescapeBuild rest

/-- `url.QueryUnescape`. -/
def QueryUnescape (s : GoString) : Except GoError GoString :=
  if unescapeCheck s then .ok (unescapeBuild s) else .error .escape

/-! ## middleware.go -/

/-- `parseVrchatBasicAuth`: username, password and error. -/
def parseVrchatBasicAuth (authHeader : GoString) : GoString × GoString × Option GoError :=
  if authHeader = [] then ([], [], none)
  else
    match SplitN2 authHeader spaceByte with
    | [p0, p1] =>
      if p0 ≠ basicScheme then ([], [], none)
      else
        match DecodeString p1 with
        | .error err => ([], [], some err)
        | .ok payload =>
          match SplitN2 payload colonByte with
          | [p, q] =>
            match QueryUnescape p with
            | .error err => ([], [], some err)
            | .ok username =>
              match QueryUnescape q with
              | .error err => ([], [], some err)
              | .ok password => (username, password, none)
          | _ => ([], [], none)
    | _ => ([], [], none)

/-- Lines 26-37 of `ApiKeyMiddleware`: the comparison with the configured key
and the success path. -/
def apiKeyCheck (env : Env) (c : Ctx) (apiKey : GoString) : Outcome :=
  if apiKey ≠ env.apiKey then
    { ctx := c.reply 401 .ErrInvalidCredentialsResponse, flow := .done }
  else
    { ctx := (c.setLocal "apiKey" (.str apiKey)).setCookie
        { Name := "apiKey", Value := apiKey, SameSite := "disabled" },
      flow := .next }

/-- `ApiKeyMiddleware`. -/
def ApiKeyMiddleware (env : Env) (c : Ctx) : Outcome :=
  let apiKey := c.query "apiKey"
  if apiKey = [] then
    let apiKey := c.cookies "apiKey"
    if apiKey = [] then
      { ctx := c.reply 401 .ErrMissingCredentialsResponse, flow := .done }
    else apiKeyCheck env c apiKey
  else apiKeyCheck env c apiKey

/-- `DoLoginMiddleware`. -/
def DoLoginMiddleware (env : Env) (c : Ctx) : Outcome :=
  let authorizationHeader := c.header "Authorization"
  if authorizationHeader ≠ [] then
    match parseVrchatBasicAuth authorizationHeader with
    | (_, _, some _) =>
      { ctx := c.reply 401 .ErrInvalidCredentialsResponse, flow := .done }
    | (username, password, none) =>
      let u0 : User := { Username := username }
      match env.dbFirst u0 with
      | .error _ =>
        { ctx := c.reply 401 .ErrInvalidCredentialsResponse, flow := .done,
          trace := [.dbFirst u0] }
      | .ok u =>
        match env.checkPassword u password with
        | (true, none) =>
          match env.createAuthCookie u c.ip false with
          | .error _ =>
            { ctx := c.reply 500 (.fiberMap [("error", "Failed to create auth cookie")]),
              flow := .done,
              trace := [.dbFirst u0, .checkPassword u password, .createAuthCookie u c.ip] }
          | .ok t =>
            { ctx := ((c.setLocal "user" (.user u)).setLocal "authCookie" (.str t)).setCookie
                { Name := "auth", Value := t, Expires := some (env.now + 24 * 3600),
                  SameSite := "disabled" },
              flow := .next,
              trace := [.dbFirst u0, .checkPassword u password, .createAuthCookie u c.ip] }
        | _ =>
          { ctx := c.reply 401 .ErrInvalidCredentialsResponse, flow := .done,
            trace := [.dbFirst u0, .checkPassword u password] }
  else
    { ctx := c, flow := .next }

/-- Lines 94-109 of `AuthMiddleware`: validation of the chosen token and the
loading of its account. -/
def authValidate (env : Env) (c : Ctx) (authCookie : GoString) : Outcome :=
  match env.validateAuthCookie authCookie c.ip false with
  | .error _ =>
    { ctx := c.reply 401 .ErrInvalidCredentialsResponse, flow := .done,
      trace := [.println authCookie, .validateAuthCookie authCookie c.ip] }
  | .ok uid =>
    let u0 : User := { ID := uid }
    match env.dbFirst u0 with
    | .error _ =>
      { ctx := c.reply 401 .ErrInvalidCredentialsResponse, flow := .done,
        trace := [.println authCookie, .validateAuthCookie authCookie c.ip, .dbFirst u0] }
    | .ok u =>
      { ctx := (c.setLocal "authCookie" (.str authCookie)).setLocal "user" (.user u),
        flow := .next,
        trace := [.println authCookie, .validateAuthCookie authCookie c.ip, .dbFirst u0] }

/-- `AuthMiddleware`. -/
def AuthMiddleware (env : Env) (c : Ctx) : Outcome :=
  let authCookie := c.cookies "auth"
  if authCookie = [] then
    match c.locals "authCookie" with
    | some (.str authCookie_) =>
      if authCookie_ = [] then
        { ctx := c.reply 401 .ErrMissingCredentialsResponse, flow := .done }
      else authValidate env c authCookie_
    | _ => { ctx := c.reply 401 .ErrMissingCredentialsResponse, flow := .done }
  else authValidate env c authCookie

/-- `MfaMiddleware`. -/
def MfaMiddleware (c : Ctx) : Outcome :=
  match c.locals "user" with
  | none => { ctx := c.reply 401 .ErrMissingCredentialsResponse, flow := .done }
  | some (.str _) => { ctx := c, flow := .panic }
  | some (.user user) =>
    if !user.MfaEnabled then { ctx := c, flow := .next }
    else if c.cookies "twoFactorAuth" = [] then
      { ctx := c.reply 401 .ErrTwoFactorAuthenticationRequiredResponse, flow := .done }
    else { ctx := c, flow := .next }

/-! ## request_models.go: the tag checks -/

/-- `strings.HasPrefix`. -/
def HasPrefix (s pre : GoString) : Bool := pre.isPrefixOf s

/-- `strings.Split(s, sep)` for a one-byte separator: all the parts. -/
def Split : GoString → Nat → List GoString
  | [], _ => [[]]
  | c :: rest, sep =>
    if c = sep then [] :: Split rest sep
    else
      match Split rest sep with
      | [] => [[c]]
      | part :: parts => (c :: part) :: parts

/-- The string `"language_"`. -/
def languageLead : GoString := [108, 97, 110, 103, 117, 97, 103, 101, 95]

/-- The string `"system_"`. -/
def systemLead : GoString := [115, 121, 115, 116, 101, 109, 95]

/-- The string `"admin_"`. -/
def adminLead : GoString := [97, 100, 109, 105, 110, 95]

/-- The byte `'_'`. -/
def underscoreByte : Nat := 95

/-- `ValidLanguageTags`: eng, kor, rus, spa, por, zho, deu, jpn, fra, swe, nld,
pol, dan, nor, ita, tha, fin, hun, ces, tur, ara, ron, vie, ukr, ase, bfi, dse,
fsl, kvk. -/
def ValidLanguageTags : List GoString :=
  [[101, 110, 103], [107, 111, 114], [114, 117, 115], [115, 112, 97], [112, 111, 114], [122,
   104, 111], [100, 101, 117], [106, 112, 110], [102, 114, 97], [115, 119, 101], [110, 108,
   100], [112, 111, 108], [100, 97, 110], [110, 111, 114], [105, 116, 97], [116, 104, 97],
   [102, 105, 110], [104, 117, 110], [99, 101, 115], [116, 117, 114], [97, 114, 97], [114,
   111, 110], [118, 105, 101], [117, 107, 114], [97, 115, 101], [98, 102, 105], [100, 115,
   101], [102, 115, 108], [107, 118, 107]]

/-- The errors of the `models` package that the tag checks return. -/
inductive ModelError where
  | ErrInvalidLanguageTagInUserUpdate
  | ErrTooManyLanguageTagsInUserUpdate
  deriving DecidableEq, Repr

/-- `isValidLanguageTag`. -/
def isValidLanguageTag (tag : GoString) : Bool :=
  if ! HasPrefix tag languageLead then false
  else
    match Split tag underscoreByte with
    | [_, tagPart] => ValidLanguageTags.any fun validTag => tagPart == validTag
    | _ => false

/-- The `Tags` field of `UpdateUserRequest`, the only field `TagsChecks`
reads. -/
structure UpdateUserRequest where
  Tags : List GoString
  deriving DecidableEq, Repr

/-- `AddTagsRequest`. -/
structure AddTagsRequest where
  Tags : List GoString
  deriving DecidableEq, Repr

/-- `RemoveTagsRequest`. -/
structure RemoveTagsRequest where
  Tags : List GoString
  deriving DecidableEq, Repr

/-- The first loop of `UpdateUserRequest.TagsChecks` (lines 188-204) and of
`AddTagsRequest.TagsChecks` (lines 268-284), which are the same text: `staff`
is `u.IsStaff()`, `i` the counter of language tags and `tagsThatWillApply` the
slice built so far. -/
def applyLoop (staff : Bool) :
    List GoString → Nat → List GoString → Except ModelError (List GoString)
  | [], _, tagsThatWillApply => .ok tagsThatWillApply
  | tag :: rest, i, tagsThatWillApply =>
    if ! HasPrefix tag languageLead && !staff then applyLoop staff rest i tagsThatWillApply
    else if HasPrefix tag languageLead then
      if !isValidLanguageTag tag then .error .ErrInvalidLanguageTagInUserUpdate
      else if i + 1 > 3 then .error .ErrTooManyLanguageTagsInUserUpdate
      else applyLoop staff rest (i + 1) (tagsThatWillApply ++ [tag])
    else applyLoop staff rest i (tagsThatWillApply ++ [tag])

/-- The second loop of both functions: the `system_` and `admin_` tags the user
already holds. -/
def heldSystemTags (uTags : List GoString) : List GoString :=
  uTags.filter fun tag => HasPrefix tag systemLead || HasPrefix tag adminLead

/-- `UpdateUserRequest.TagsChecks`: the returned pair and the user afterwards.
`IsStaff` stands for the method `u.IsStaff()` of the `models` package. -/
def UpdateUserRequest.TagsChecks (IsStaff : User → Bool) (r : UpdateUserRequest) (u : User) :
    (Bool × Option ModelError) × User :=
  if r.Tags.length = 0 then ((false, none), u)
  else
    match applyLoop (IsStaff u) r.Tags 0 [] with
    | .error err => ((false, some err), u)
    | .ok tagsThatWillApply =>
      ((true, none), { u with Tags := tagsThatWillApply ++ heldSystemTags u.Tags })

/-- `AddTagsRequest.TagsChecks`. -/
def AddTagsRequest.TagsChecks (IsStaff : User → Bool) (r : AddTagsRequest) (u : User) :
    (Bool × Option ModelError) × User :=
  if r.Tags.length = 0 then ((false, none), u)
  else
    match applyLoop (IsStaff u) r.Tags 0 [] with
    | .error err => ((false, some err), u)
    | .ok tagsThatWillApply =>
      ((true, none), { u with Tags := tagsThatWillApply ++ heldSystemTags u.Tags })

/-- The loops of `RemoveTagsRequest.TagsChecks` (lines 301-315): for every
requested tag with the `language_` lead, every held tag different from it is
appended. -/
def removeLoop (uTags : List GoString) : List GoString → List GoString → List GoString
  | [], tagsThatWillApply => tagsThatWillApply
  | tag :: rest, tagsThatWillApply =>
    if ! HasPrefix tag languageLead then removeLoop uTags rest tagsThatWillApply
    else removeLoop uTags rest (tagsThatWillApply ++ uTags.filter fun uTag => tag != uTag)

/-- `RemoveTagsRequest.TagsChecks`. -/
def RemoveTagsRequest.TagsChecks (r : RemoveTagsRequest) (u : User) :
    (Bool × Option ModelError) × User :=
  if r.Tags.length = 0 then ((false, none), u)
  else ((true, none), { u with Tags := removeLoop u.Tags r.Tags [] })

/-! ## avatars_routes.go: the avatar listing -/

/-- The digits of a decimal numeral, most significant first, added to `acc`;
`none` when a byte is not a digit. -/
def digitsValue : GoString → Nat → Option Nat
  | [], acc => some acc
  | c :: rest, acc =>
    if 48 ≤ c ∧ c ≤ 57 then digitsValue rest (acc * 10 + (c - 48)) else none

/-- `strconv.Atoi` on a 64-bit platform: an optional sign, at least one decimal
digit, a value that fits `int`; `none` is a non-nil error. -/
def Atoi (s : GoString) : Option Int :=
  match s with
  | [] => none
  | c :: rest =>
    if c = 43 ∨ c = 45 then
      if rest = [] then none
      else
        match digitsValue rest 0 with
        | none => none
        | some n =>
          if c = 45 then (if n ≤ 9223372036854775808 then some (-(n : Int)) else none)
          else (if n < 9223372036854775808 then some (n : Int) else none)
    else
      match digitsValue s 0 with
      | none => none
      | some n => if n < 9223372036854775808 then some (n : Int) else none

/-- Modelled from the spec: the constant `models.ReleaseStatusPublic` is
declared outside the files; its value is the string `public`. -/
def ReleaseStatusPublic : GoString := [112, 117, 98, 108, 105, 99]

/-- Modelled from the spec: the constant `models.ReleaseStatusPrivate` is
declared outside the files; its value is the string `private`. -/
def ReleaseStatusPrivate : GoString := [112, 114, 105, 118, 97, 116, 101]

/-- Modelled from the spec: the constant `models.ReleaseStatusHidden` is
declared outside the files; its value is the string `hidden`. -/
def ReleaseStatusHidden : GoString := [104, 105, 100, 100, 101, 110]

/-- The string `"internal"`. -/
def internalType : GoString := [105, 110, 116, 101, 114, 110, 97, 108]

/-- The string `"me"`. -/
def meValue : GoString := [109, 101]

/-- The string `"shuffle"`. -/
def shuffleValue : GoString := [115, 104, 117, 102, 102, 108, 101]

/-- The byte `','`. -/
def commaByte : Nat := 44

/-- A condition added to the query with `tx.Where`.  The statement of a
`*gorm.DB` obtained from `Model` is shared by the calls chained on it, so a
`tx.Where(...)` whose result is dropped still adds its condition. -/
inductive Where where
  /-- `name ILIKE ?` -/
  | nameILike (pattern : GoString)
  /-- `author_id = ?` -/
  | authorId (id : GoString)
  /-- `(?::text[] && tags) IS true` -/
  | tagsOverlap (tags : List GoString)
  /-- `(?::text[] && tags) IS NOT true` -/
  | tagsDisjoint (tags : List GoString)
  /-- `release_status = ?` -/
  | releaseStatus (status : GoString)
  deriving DecidableEq, Repr

/-- The query handed to `tx.Find(&avatars)`. -/
structure AvatarQuery where
  wheres : List Where
  /-- `random()` was asked for with `tx.Order` -/
  shuffled : Bool
  limit : Int
  offset : Int
  deriving DecidableEq, Repr

/-- The local variables of `getAvatars` with their initial values (lines
32-41). -/
structure AvatarSearch where
  numberOfAvatarsToSearch : Int := 60
  avatarsOffset : Int := 0
  searchSort : GoString := []
  searchTerm : GoString := []
  searchTagsInclude : List GoString := []
  searchTagsExclude : List GoString := []
  searchSelf : Bool := false
  searchUser : GoString := []
  searchReleaseStatus : GoString := ReleaseStatusPublic
  limitToReleaseStatus : Bool := true
  deriving DecidableEq, Repr

/-- How `getAvatars` ends: at the label `badRequest` with status 400, or with
the avatars the query finds. -/
inductive AvatarsResult where
  | badRequest
  | find (q : AvatarQuery)
  deriving DecidableEq, Repr

/-- Lines 47-58, the parameter `n`; `none` is `goto badRequest`. -/
def readN (c : Ctx) (v : AvatarSearch) : Option AvatarSearch :=
  if c.query "n" ≠ [] then
    match Atoi (c.query "n") with
    | none => none
    | some atoi =>
      if atoi < 1 ∨ atoi > 100 then none
      else some { v with numberOfAvatarsToSearch := atoi }
  else some v

/-- Lines 60-71, the parameter `offset`; `none` is `goto badRequest`. -/
def readOffset (c : Ctx) (v : AvatarSearch) : Option AvatarSearch :=
  if c.query "offset" ≠ [] then
    match Atoi (c.query "offset") with
    | none => none
    | some atoi =>
      if atoi < 0 then none
      else some { v with avatarsOffset := atoi }
  else some v

/-- Lines 73-78, the parameter `search`; `none` is `goto badRequest`.
`IsStaff` stands for the method `u.IsStaff()` of the `models` package. -/
def readSearch (IsStaff : User → Bool) (u : User) (c : Ctx) (v : AvatarSearch) :
    Option AvatarSearch :=
  if c.query "search" ≠ [] then
    if !IsStaff u then none
    else some { v with searchTerm := c.query "search" }
  else some v

/-- Lines 80-83, the parameter `user`. -/
def readUser (c : Ctx) (v : AvatarSearch) : AvatarSearch :=
  if c.query "user" = meValue then { v with limitToReleaseStatus := false, searchSelf := true }
  else v

/-- Lines 85-87, the parameter `userId`. -/
def readUserId (c : Ctx) (v : AvatarSearch) : AvatarSearch :=
  if c.query "userId" ≠ [] then { v with searchUser := c.query "userId" } else v

/-- Lines 89-92, the parameter `tag`. -/
def readTag (c : Ctx) (v : AvatarSearch) : AvatarSearch :=
  if c.query "tag" ≠ [] then
    { v with searchTagsInclude := v.searchTagsInclude ++ Split (c.query "tag") commaByte }
  else v

/-- Lines 94-97, the parameter `notag`. -/
def readNotag (c : Ctx) (v : AvatarSearch) : AvatarSearch :=
  if c.query "notag" ≠ [] then
    { v with searchTagsExclude := v.searchTagsExclude ++ Split (c.query "notag") commaByte }
  else v

/-- Lines 99-116, the parameter `releaseStatus` and its `switch`. -/
def readReleaseStatus (u : User) (c : Ctx) (v : AvatarSearch) : AvatarSearch :=
  if c.query "releaseStatus" ≠ [] then
    if c.query "releaseStatus" = ReleaseStatusPublic then
      { v with searchReleaseStatus := ReleaseStatusPublic }
    else if c.query "releaseStatus" = ReleaseStatusPrivate then
      { v with searchReleaseStatus := ReleaseStatusPrivate,
               searchSelf := if !v.searchSelf then true else v.searchSelf,
               searchUser := if v.searchUser = [] then u.ID else v.searchUser }
    else if c.query "releaseStatus" = ReleaseStatusHidden then
      { v with searchReleaseStatus := ReleaseStatusHidden }
    else v
  else v

/-- Lines 118-120, the parameter `sort`. -/
def readSort (c : Ctx) (v : AvatarSearch) : AvatarSearch :=
  if c.query "sort" ≠ [] then { v with searchSort := c.query "sort" } else v

/-- Lines 80-120 in their order: the parameters `user`, `userId`, `tag`,
`notag`, `releaseStatus` and `sort`. -/
def readFilters (u : User) (c : Ctx) (v : AvatarSearch) : AvatarSearch :=
  readSort c (readReleaseStatus u c (readNotag c (readTag c (readUserId c (readUser c v)))))

/-- Lines 122-141, the conditions added before the permission check. -/
def searchWheres (u : User) (v : AvatarSearch) : List Where :=
  (if v.searchTerm ≠ [] then [Where.nameILike (percentByte :: v.searchTerm ++ [percentByte])]
    else []) ++
  (if v.searchSelf then [Where.authorId u.ID] else []) ++
  (if v.searchUser ≠ [] then [Where.authorId v.searchUser] else []) ++
  (if v.searchTagsInclude.length > 0 then [Where.tagsOverlap v.searchTagsInclude] else []) ++
  (if v.searchTagsExclude.length > 0 then [Where.tagsDisjoint v.searchTagsExclude] else [])

/-- Lines 149-158, the permission check: `true` is `goto badRequest`. -/
def statusForbidden (u : User) (v : AvatarSearch) : Bool :=
  if v.searchReleaseStatus ≠ ReleaseStatusPublic then
    if v.searchReleaseStatus = ReleaseStatusHidden ∧ u.DeveloperType ≠ internalType then true
    else if v.searchReleaseStatus = ReleaseStatusPrivate ∧
        (v.searchUser ≠ u.ID ∨ ¬ v.searchSelf = true) ∧ u.DeveloperType ≠ internalType then true
    else false
  else false

/-- `getAvatars` up to `tx.Find(&avatars)`; `u` is the account in the `user`
local (line 31). -/
def getAvatars (IsStaff : User → Bool) (u : User) (c : Ctx) : AvatarsResult :=
  match readN c {} with
  | none => .badRequest
  | some v =>
    match readOffset c v with
    | none => .badRequest
    | some v =>
      match readSearch IsStaff u c v with
      | none => .badRequest
      | some v =>
        let v := readFilters u c v
        if statusForbidden u v then .badRequest
        else
          .find
            { wheres := searchWheres u v ++
                (if v.limitToReleaseStatus then [Where.releaseStatus v.searchReleaseStatus]
                  else []),
              shuffled := decide (v.searchSort ≠ [] ∧ v.searchSort = shuffleValue),
              limit := v.numberOfAvatarsToSearch,
              offset := v.avatarsOffset }

/-! ## Notions of the specification -/

/-- The effective API key of a request in the words of the specification: the
`apiKey` query parameter when that is non-empty, the `apiKey` cookie
otherwise. -/
def effectiveApiKey (c : Ctx) : GoString :=
  if c.query "apiKey" ≠ [] then c.query "apiKey" else c.cookies "apiKey"

/-- The characters the client leaves unescaped: ASCII letters, digits, `-`,
`_`, `.` and `~`. -/
def isUnreserved (c : Nat) : Bool :=
  (65 ≤ c && c ≤ 90) || (97 ≤ c && c ≤ 122) || (48 ≤ c && c ≤ 57) ||
    c == 45 || c == 95 || c == 46 || c == 126

/-- The upper-case hexadecimal digit of a value below 16. -/
def hexDigit (n : Nat) : Nat := if n < 10 then 48 + n else 55 + n

/-- Percent-encoding of every byte that is not unreserved, as `%XX`. -/
def percentEncode : GoString → GoString
  | [] => []
  | c :: rest =>
    if isUnreserved c then c :: percentEncode rest
    else percentByte :: hexDigit (c / 16) :: hexDigit (c % 16) :: percentEncode rest

/-- The character of the standard base64 alphabet for a six-bit value. -/
def encodeChar (v : Nat) : Nat :=
  if v < 26 then 65 + v
  else if v < 52 then 71 + v
  else if v < 62 then v - 4
  else if v = 62 then 43
  else 47

/-- Standard padded base64 (RFC 4648, section 4). -/
def base64Encode : GoString → GoString
  | a :: b :: c :: rest =>
    encodeChar ((a * 65536 + b * 256 + c) / 262144 % 64) ::
    encodeChar ((a * 65536 + b * 256 + c) / 4096 % 64) ::
    encodeChar ((a * 65536 + b * 256 + c) / 64 % 64) ::
    encodeChar ((a * 65536 + b * 256 + c) % 64) :: base64Encode rest
  | [a, b] =>
    [encodeChar ((a * 65536 + b * 256) / 262144 % 64),
     encodeChar ((a * 65536 + b * 256) / 4096 % 64),
     encodeChar ((a * 65536 + b * 256) / 64 % 64), padByte]
  | [a] =>
    [encodeChar (a * 65536 / 262144 % 64), encodeChar (a * 65536 / 4096 % 64),
     padByte, padByte]
  | [] => []

/-- Membership in the standard base64 alphabet `A-Z a-z 0-9 + /`. -/
def isBase64Char (c : Nat) : Bool :=
  (65 ≤ c && c ≤ 90) || (97 ≤ c && c ≤ 122) || (48 ≤ c && c ≤ 57) || c == 43 || c == 47

/-- Well-formed padded base64 text: groups of four alphabet characters, where
the last group may end in `=` or `==`. -/
def wellPadded : GoString → Bool
  | [] => true
  | a :: b :: c :: d :: rest =>
    isBase64Char a && isBase64Char b &&
      (if rest = [] then
        (isBase64Char c && (isBase64Char d || d == padByte)) || (c == padByte && d == padByte)
      else isBase64Char c && isBase64Char d && wellPadded rest)
  | _ => false

/-- The text without its line breaks, which `StdEncoding` ignores. -/
def stripNewlines (s : GoString) : GoString := s.filter fun c => c != 10 && c != 13

/-- Valid standard base64: well-formed padded text over the standard
alphabet, line breaks aside. -/
def IsStdBase64 (s : GoString) : Prop := wellPadded (stripNewlines s) = true

instance (s : GoString) : Decidable (IsStdBase64 s) := by
  unfold IsStdBase64; infer_instance

/-- The text contains an invalid percent-escape: a `%` that is not followed by
two hexadecimal digits. -/
def hasInvalidEscape : GoString → Bool
  | [] => false
  | c :: rest =>
    (c == percentByte &&
      !(match rest with
        | a :: b :: _ => ishex a && ishex b
        | _ => false)) || hasInvalidEscape rest

/-- The number of tags with the `language_` lead. -/
def countLanguage (tags : List GoString) : Nat :=
  (tags.filter fun tag => HasPrefix tag languageLead).length

/-- The number of valid language tags. -/
def countValidLanguage (tags : List GoString) : Nat :=
  (tags.filter isValidLanguageTag).length

/-- The previous tags with the requested `language_` tags removed, in the
words of the specification: the held tags in their order, without those that
are a requested tag with the `language_` lead. -/
def tagsWithout (requested uTags : List GoString) : List GoString :=
  uTags.filter fun uTag => !(HasPrefix uTag languageLead && requested.contains uTag)

/-- The columns of an avatar row that the conditions of the listing read. -/
structure Avatar where
  AuthorID : GoString
  ReleaseStatus : GoString
  Name : GoString
  Tags : List GoString
  deriving DecidableEq, Repr

/-- The row satisfies the condition; `ilike name pattern` stands for the
database's `ILIKE`. -/
def Where.holds (ilike : GoString → GoString → Bool) : Where → Avatar → Bool
  | .nameILike pattern, a => ilike a.Name pattern
  | .authorId id, a => a.AuthorID == id
  | .tagsOverlap tags, a => tags.any fun t => a.Tags.contains t
  | .tagsDisjoint tags, a => !(tags.any fun t => a.Tags.contains t)
  | .releaseStatus status, a => a.ReleaseStatus == status

/-- The row is among those the query lists: it satisfies every condition. -/
def AvatarQuery.selects (ilike : GoString → GoString → Bool) (q : AvatarQuery) (a : Avatar) :
    Bool :=
  q.wheres.all fun w => w.holds ilike a

/-- What the permission reasoning needs of the search variables: without the
release-status limit the search is restricted to the requester, and a private
search is restricted to the requester. -/
def AvatarSearch.Guarded (v : AvatarSearch) : Prop :=
  (v.limitToReleaseStatus = false → v.searchSelf = true) ∧
  (v.searchReleaseStatus = ReleaseStatusPublic ∨
    (v.searchReleaseStatus = ReleaseStatusPrivate ∧ v.searchSelf = true) ∨
    v.searchReleaseStatus = ReleaseStatusHidden)

/-- A scalar of a JSON document. -/
inductive JsonScalar where
  | str (s : String)
  | num (n : Nat)
  deriving DecidableEq, Repr

/-- A member value of a JSON response body: a scalar or an object of
scalars. -/
inductive JsonValue where
  | scalar (v : JsonScalar)
  | object (fields : List (String × JsonScalar))
  deriving DecidableEq, Repr

/-- The JSON object `c.JSON` writes for a `fiber.Map` whose values are
strings. -/
def fiberMapJson (fields : List (String × String)) : List (String × JsonValue) :=
  fields.map fun kv => (kv.1, .scalar (.str kv.2))

/-- The error envelope of the specification,
`{"error": {"message": <string>, "status_code": <int>}}`, the shape `getWorld`
builds for its own 500 answer. -/
def errorEnvelope (message : String) (code : Nat) : List (String × JsonValue) :=
  [("error", .object [("message", .str message), ("status_code", .num code)])]

/-- The tokens a run handed to `ValidateAuthCookie`, in order. -/
def validatedTokens : List Call → List GoString
  | [] => []
  | .validateAuthCookie t _ :: rest => t :: validatedTokens rest
  | _ :: rest => validatedTokens rest

/-! ## Sample requests and collaborators -/

/-- A request with no query parameters, cookies, headers or locals. -/
def emptyCtx : Ctx :=
  { query := fun _ => [], cookies := fun _ => [], header := fun _ => [],
    ip := [49], locals := fun _ => none, resp := {} }

/-- An account store with one account, `alice` with password `pw`, whose
sessions are the token `tok`; the shared secret is `key`. -/
def sampleEnv : Env :=
  { apiKey := [107, 101, 121],
    dbFirst := fun u =>
      if u.Username = [97, 108, 105, 99, 101] ∨ u.ID = [117, 49] then
        .ok { ID := [117, 49], Username := [97, 108, 105, 99, 101] }
      else .error (.other 1),
    checkPassword := fun _ p => (decide (p = [112, 119]), none),
    createAuthCookie := fun _ _ _ => .ok [116, 111, 107],
    validateAuthCookie := fun t _ _ =>
      if t = [116, 111, 107] then .ok [117, 49] else .error (.other 2),
    now := 0 }

/-- An account store whose first record is returned for a query without
conditions and has the empty password. -/
def openEnv : Env :=
  { sampleEnv with
    dbFirst := fun _ => .ok { ID := [117, 49], Username := [97, 108, 105, 99, 101] },
    checkPassword := fun _ p => (decide (p = []), none) }

/-- A request carrying the given `Authorization` header. -/
def withAuthorization (h : GoString) : Ctx :=
  { emptyCtx with header := fun k => if k = "Authorization" then h else [] }

/-- The sample store with a session store that is down. -/
def brokenSessionEnv : Env :=
  { sampleEnv with createAuthCookie := fun _ _ _ => .error (.other 3) }

/-- The header `Basic YWxpY2U6cHc=`, the credentials `alice:pw`. -/
def aliceHeader : GoString :=
  [66, 97, 115, 105, 99, 32, 89, 87, 120, 112, 89, 50, 85, 54, 99, 72, 99, 61]

/-- The tag `language_eng`. -/
def langEng : GoString := [108, 97, 110, 103, 117, 97, 103, 101, 95, 101, 110, 103]

/-- The tag `language_kor`. -/
def langKor : GoString := [108, 97, 110, 103, 117, 97, 103, 101, 95, 107, 111, 114]

/-- The tag `language_rus`. -/
def langRus : GoString := [108, 97, 110, 103, 117, 97, 103, 101, 95, 114, 117, 115]

/-- The tag `language_spa`. -/
def langSpa : GoString := [108, 97, 110, 103, 117, 97, 103, 101, 95, 115, 112, 97]

/-- The tag `language_xx`, not a valid language tag. -/
def langXx : GoString := [108, 97, 110, 103, 117, 97, 103, 101, 95, 120, 120]

/-- The tag `system_x`. -/
def systemX : GoString := [115, 121, 115, 116, 101, 109, 95, 120]

/-- A user holding `system_x`, `language_eng` and `language_kor`. -/
def taggedUser : User :=
  { ID := [117, 49], Username := [97, 108, 105, 99, 101], Tags := [systemX, langEng, langKor] }

/-- An account with the second factor switched on. -/
def mfaUser : User := { ID := [117, 50], Username := [98, 111, 98], MfaEnabled := true }

/-- An account with the second factor switched off. -/
def plainUser : User := { ID := [117, 49], Username := [97, 108, 105, 99, 101] }

/-! ## Splitting and the shape of the parser -/

theorem cut_append (sep : Nat) (a b : GoString) (h : sep ∉ a) :
    cut sep (a ++ sep :: b) = some (a, b) := by
  induction a with
  | nil => simp [cut]
  | cons x xs ih =>
    have hx : x ≠ sep := fun e => h (by simp [e])
    have hxs : sep ∉ xs := fun e => h (by simp [e])
    simp [cut, hx, ih hxs]

theorem cut_eq_none (sep : Nat) (s : GoString) (h : sep ∉ s) : cut sep s = none := by
  induction s with
  | nil => rfl
  | cons x xs ih =>
    have hx : x ≠ sep := fun e => h (by simp [e])
    have hxs : sep ∉ xs := fun e => h (by simp [e])
    simp [cut, hx, ih hxs]

theorem SplitN2_append (sep : Nat) (a b : GoString) (h : sep ∉ a) :
    SplitN2 (a ++ sep :: b) sep = [a, b] := by
  simp [SplitN2, cut_append sep a b h]

theorem SplitN2_of_not_mem (sep : Nat) (s : GoString) (h : sep ∉ s) :
    SplitN2 s sep = [s] := by
  simp [SplitN2, cut_eq_none sep s h]

/-- A header `Basic <payload>` reaches the base64 decoder with `<payload>`. -/
theorem parse_basic (payload : GoString) :
    parseVrchatBasicAuth (basicScheme ++ spaceByte :: payload) =
      match DecodeString payload with
      | .error err => ([], [], some err)
      | .ok raw =>
        match SplitN2 raw colonByte with
        | [p, q] =>
          match QueryUnescape p with
          | .error err => ([], [], some err)
          | .ok username =>
            match QueryUnescape q with
            | .error err => ([], [], some err)
            | .ok password => (username, password, none)
        | _ => ([], [], none) := by
  have hs : SplitN2 (basicScheme ++ spaceByte :: payload) spaceByte = [basicScheme, payload] :=
    SplitN2_append spaceByte basicScheme payload (by decide)
  have hne : basicScheme ++ spaceByte :: payload ≠ [] := by simp [basicScheme]
  unfold parseVrchatBasicAuth
  rw [if_neg hne, hs]
  simp

/-- A parse error makes `DoLoginMiddleware` answer 401 before any lookup. -/
theorem login_of_parse_error (env : Env) (c : Ctx) (a b : GoString) (e : GoError)
    (hne : c.header "Authorization" ≠ [])
    (hp : parseVrchatBasicAuth (c.header "Authorization") = (a, b, some e)) :
    DoLoginMiddleware env c =
      { ctx := c.reply 401 .ErrInvalidCredentialsResponse, flow := .done } := by
  unfold DoLoginMiddleware
  simp only [hne, ne_eq, not_false_eq_true, if_true, hp]

/-- When the parser returns a pair without error and the password check for
the account found does not succeed, `DoLoginMiddleware` answers 401
`ErrInvalidCredentialsResponse` and leaves locals and cookies alone. -/
theorem login_of_failed_check (env : Env) (c : Ctx) (username password : GoString)
    (hne : c.header "Authorization" ≠ [])
    (hp : parseVrchatBasicAuth (c.header "Authorization") = (username, password, none))
    (hpw : ∀ u, env.dbFirst { Username := username } = .ok u →
      env.checkPassword u password ≠ (true, none)) :
    (DoLoginMiddleware env c).flow = .done ∧
    (DoLoginMiddleware env c).ctx.resp.status = 401 ∧
    (DoLoginMiddleware env c).ctx.resp.body = some .ErrInvalidCredentialsResponse ∧
    (DoLoginMiddleware env c).ctx.resp.cookies = c.resp.cookies ∧
    (DoLoginMiddleware env c).ctx.locals = c.locals := by
  unfold DoLoginMiddleware
  simp only [hne, ne_eq, not_false_eq_true, if_true, hp]
  cases hdb : env.dbFirst { Username := username } with
  | error e => simp [Ctx.reply]
  | ok u =>
    have hck := hpw u hdb
    simp only
    simp [Ctx.reply]

/-! ## Base64: decoding what the encoder wrote -/

theorem decodeMap_encodeChar (v : Nat) (h : v < 64) : decodeMap (encodeChar v) = some v := by
  interval_cases v <;> rfl

theorem decodeLoop_quad (v0 v1 v2 v3 : Nat) (h0 : v0 < 64) (h1 : v1 < 64) (h2 : v2 < 64)
    (h3 : v3 < 64) (rest out : GoString) :
    decodeLoop (encodeChar v0 :: encodeChar v1 :: encodeChar v2 :: encodeChar v3 :: rest) [] out =
      decodeLoop rest [] (out ++ quantumBytes [v0, v1, v2, v3]) := by
  simp [decodeLoop, decodeMap_encodeChar, h0, h1, h2, h3]

theorem quantumBytes_full (a b c : Nat) (ha : a < 256) (hb : b < 256) (hc : c < 256) :
    quantumBytes [(a * 65536 + b * 256 + c) / 262144 % 64, (a * 65536 + b * 256 + c) / 4096 % 64,
      (a * 65536 + b * 256 + c) / 64 % 64, (a * 65536 + b * 256 + c) % 64] = [a, b, c] := by
  simp only [quantumBytes, List.getD_cons_zero, List.getD_cons_succ, List.length_cons,
    List.length_nil]
  simp only [Nat.reduceAdd, Nat.add_one_sub_one, List.take_succ_cons, List.take_zero,
    List.cons.injEq, and_true]
  refine ⟨?_, ?_, ?_⟩ <;> omega

theorem quantumBytes_two (a b : Nat) (ha : a < 256) (hb : b < 256) :
    quantumBytes [(a * 65536 + b * 256) / 262144 % 64, (a * 65536 + b * 256) / 4096 % 64,
      (a * 65536 + b * 256) / 64 % 64] = [a, b] := by
  simp only [quantumBytes, List.getD_cons_zero, List.getD_cons_succ, List.length_cons,
    List.length_nil, List.getD_nil]
  simp only [Nat.reduceAdd, Nat.add_one_sub_one, List.take_succ_cons, List.take_zero,
    List.cons.injEq, and_true]
  refine ⟨?_, ?_⟩ <;> omega

theorem quantumBytes_one (a : Nat) (ha : a < 256) :
    quantumBytes [a * 65536 / 262144 % 64, a * 65536 / 4096 % 64] = [a] := by
  simp only [quantumBytes, List.getD_cons_zero, List.getD_cons_succ, List.length_cons,
    List.length_nil, List.getD_nil]
  simp only [Nat.reduceAdd, Nat.add_one_sub_one, List.take_succ_cons, List.take_zero,
    List.cons.injEq, and_true]
  omega

/-- Decoding the encoder's output appends the encoded bytes. -/
theorem decodeLoop_base64Encode :
    ∀ (s out : GoString), IsBytes s → decodeLoop (base64Encode s) [] out = .ok (out ++ s)
  | [], out, _ => by simp [base64Encode, decodeLoop]
  | [a], out, h => by
    have ha : a < 256 := h a (by simp)
    have e1 : decodeMap (encodeChar (a * 65536 / 262144 % 64)) = some (a * 65536 / 262144 % 64) :=
      decodeMap_encodeChar _ (by omega)
    have e2 : decodeMap (encodeChar (a * 65536 / 4096 % 64)) = some (a * 65536 / 4096 % 64) :=
      decodeMap_encodeChar _ (by omega)
    have e3 : decodeMap padByte = none := by decide
    simp only [base64Encode, decodeLoop, e1, e2, e3, List.length_nil, List.nil_append,
      List.length_cons, List.singleton_append, skipNewlines]
    simp [padByte, quantumBytes_one a ha, skipNewlines]
  | [a, b], out, h => by
    have ha : a < 256 := h a (by simp)
    have hb : b < 256 := h b (by simp)
    have e1 := decodeMap_encodeChar ((a * 65536 + b * 256) / 262144 % 64) (by omega)
    have e2 := decodeMap_encodeChar ((a * 65536 + b * 256) / 4096 % 64) (by omega)
    have e3 := decodeMap_encodeChar ((a * 65536 + b * 256) / 64 % 64) (by omega)
    have e4 : decodeMap padByte = none := by decide
    simp only [base64Encode, decodeLoop, e1, e2, e3, e4, List.length_nil, List.nil_append,
      List.length_cons, List.singleton_append, List.cons_append, skipNewlines]
    simp [padByte, quantumBytes_two a b ha hb, skipNewlines]
  | a :: b :: c :: rest, out, h => by
    have ha : a < 256 := h a (by simp)
    have hb : b < 256 := h b (by simp)
    have hc : c < 256 := h c (by simp)
    have hr : IsBytes rest := fun x hx => h x (by simp [hx])
    rw [base64Encode, decodeLoop_quad _ _ _ _ (by omega) (by omega) (by omega) (by omega),
      quantumBytes_full a b c ha hb hc, decodeLoop_base64Encode rest _ hr]
    simp

/-- Round trip of the base64 model: `DecodeString` inverts the encoder on byte
strings. -/
theorem DecodeString_base64Encode (s : GoString) (h : IsBytes s) :
    DecodeString (base64Encode s) = .ok s := by
  simpa [DecodeString] using decodeLoop_base64Encode s [] h

/-! ## Percent-encoding: unescaping what the encoder wrote -/

theorem ishex_hexDigit (n : Nat) (h : n < 16) : ishex (hexDigit n) = true := by
  interval_cases n <;> rfl

theorem unhex_hexDigit (n : Nat) (h : n < 16) : unhex (hexDigit n) = n := by
  interval_cases n <;> rfl

theorem hexDigit_ne_colon (n : Nat) : hexDigit n ≠ colonByte := by
  unfold hexDigit colonByte
  split_ifs <;> omega

theorem isUnreserved_plain (c : Nat) (h : isUnreserved c = true) :
    c ≠ percentByte ∧ c ≠ 43 ∧ c ≠ colonByte ∧ c < 256 := by
  simp only [isUnreserved, Bool.or_eq_true, Bool.and_eq_true, decide_eq_true_eq,
    beq_iff_eq] at h
  simp only [percentByte, colonByte]
  omega

theorem colon_not_mem_percentEncode (s : GoString) : colonByte ∉ percentEncode s := by
  induction s with
  | nil => simp [percentEncode]
  | cons c rest ih =>
    unfold percentEncode
    split_ifs with hc
    · have := (isUnreserved_plain c hc).2.2.1
      simp [ih, Ne.symm this]
    · have h1 := hexDigit_ne_colon (c / 16)
      have h2 := hexDigit_ne_colon (c % 16)
      simp only [List.mem_cons, not_or]
      exact ⟨by decide, Ne.symm h1, Ne.symm h2, ih⟩

theorem isBytes_percentEncode (s : GoString) (h : IsBytes s) : IsBytes (percentEncode s) := by
  induction s with
  | nil => simp [percentEncode, IsBytes]
  | cons c rest ih =>
    have hr : IsBytes rest := fun x hx => h x (by simp [hx])
    have hcb : c < 256 := h c (by simp)
    have ihr := ih hr
    unfold percentEncode
    split_ifs with hc
    · intro x hx
      rcases List.mem_cons.mp hx with rfl | hx
      · exact (isUnreserved_plain _ hc).2.2.2
      · exact ihr x hx
    · intro x hx
      simp only [List.mem_cons] at hx
      rcases hx with rfl | rfl | rfl | hx
      · decide
      · unfold hexDigit; split_ifs <;> omega
      · unfold hexDigit; split_ifs <;> omega
      · exact ihr x hx

theorem unescapeCheck_percentEncode (s : GoString) (h : IsBytes s) :
    unescapeCheck (percentEncode s) = true := by
  induction s with
  | nil => rfl
  | cons c rest ih =>
    have hr : IsBytes rest := fun x hx => h x (by simp [hx])
    have hcb : c < 256 := h c (by simp)
    unfold percentEncode
    split_ifs with hc
    · have := (isUnreserved_plain c hc).1
      unfold unescapeCheck
      rw [if_neg this]
      exact ih hr
    · have h1 := ishex_hexDigit (c % 16) (Nat.mod_lt _ (by decide))
      have h2 := ishex_hexDigit (c / 16) (by omega)
      unfold unescapeCheck
      simp only [if_true, h1, h2, Bool.and_self]
      exact ih hr

theorem unescapeBuild_percentEncode (s : GoString) (h : IsBytes s) :
    unescapeBuild (percentEncode s) = s := by
  induction s with
  | nil => rfl
  | cons c rest ih =>
    have hr : IsBytes rest := fun x hx => h x (by simp [hx])
    have hcb : c < 256 := h c (by simp)
    unfold percentEncode
    split_ifs with hc
    · obtain ⟨h1, h2, -, -⟩ := isUnreserved_plain c hc
      unfold unescapeBuild
      rw [if_neg h1, if_neg h2, ih hr]
    · have h1 := unhex_hexDigit (c % 16) (Nat.mod_lt _ (by decide))
      have h2 := unhex_hexDigit (c / 16) (by omega)
      unfold unescapeBuild
      simp only [if_true, h1, h2, ih hr, List.cons.injEq, and_true]
      omega

/-- Round trip of the percent-encoding model: `QueryUnescape` inverts the
encoder on byte strings. -/
theorem QueryUnescape_percentEncode (s : GoString) (h : IsBytes s) :
    QueryUnescape (percentEncode s) = .ok s := by
  simp [QueryUnescape, unescapeCheck_percentEncode s h, unescapeBuild_percentEncode s h]

/-! ## Malformed escapes and malformed base64 are errors -/

theorem ishex_ne_percent (a : Nat) (h : ishex a = true) : (a == percentByte) = false := by
  simp only [ishex, Bool.or_eq_true, Bool.and_eq_true, decide_eq_true_eq] at h
  simp only [percentByte, beq_eq_false_iff_ne, ne_eq]
  omega

theorem unescapeCheck_eq : ∀ s : GoString, unescapeCheck s = !hasInvalidEscape s
  | [] => rfl
  | [c] => by
    by_cases hc : c = percentByte <;> simp [unescapeCheck, hasInvalidEscape, hc]
  | [c, a] => by
    by_cases hc : c = percentByte <;> by_cases ha : a = percentByte <;>
      simp [unescapeCheck, hasInvalidEscape, hc, ha]
  | c :: a :: b :: rest => by
    have ih1 := unescapeCheck_eq (a :: b :: rest)
    have ih3 := unescapeCheck_eq rest
    by_cases hc : c = percentByte
    · by_cases hab : (ishex a && ishex b) = true
      · have ha := ishex_ne_percent a (by simp_all)
        have hb := ishex_ne_percent b (by simp_all)
        rw [unescapeCheck, if_pos hc]
        simp only [hab, if_true, ih3]
        simp [hasInvalidEscape, hc, hab, ha, hb]
      · rw [unescapeCheck, if_pos hc]
        simp only [hab, if_false]
        simp [hasInvalidEscape, hc, hab]
    · rw [unescapeCheck, if_neg hc, ih1]
      conv_rhs => rw [hasInvalidEscape]
      simp [hc]

/-- The unescape model fails exactly on texts with an invalid percent-escape. -/
theorem QueryUnescape_error_iff (s : GoString) :
    QueryUnescape s = .error .escape ↔ hasInvalidEscape s = true := by
  unfold QueryUnescape
  rw [unescapeCheck_eq]
  cases hasInvalidEscape s <;> simp

theorem decodeMap_eq_none_iff (c : Nat) : decodeMap c = none ↔ isBase64Char c = false := by
  unfold decodeMap isBase64Char
  split_ifs <;> simp <;> omega

theorem decodeMap_some_isBase64Char (c v : Nat) (h : decodeMap c = some v) :
    isBase64Char c = true := by
  cases hb : isBase64Char c
  · rw [(decodeMap_eq_none_iff c).mpr hb] at h; cases h
  · rfl

theorem stripNewlines_cons (c : Nat) (rest : GoString) :
    stripNewlines (c :: rest) =
      if c = 10 ∨ c = 13 then stripNewlines rest else c :: stripNewlines rest := by
  unfold stripNewlines
  by_cases h10 : c = 10
  · simp [h10]
  · by_cases h13 : c = 13
    · simp [h13]
    · simp [List.filter_cons, h10, h13]

theorem skipNewlines_nil_iff (r : GoString) : skipNewlines r = [] ↔ stripNewlines r = [] := by
  induction r with
  | nil => simp [skipNewlines, stripNewlines]
  | cons c rest ih =>
    rw [skipNewlines, stripNewlines_cons]
    split_ifs <;> simp [ih]

theorem skipNewlines_cons (r : GoString) (d : Nat) (r2 : GoString)
    (h : skipNewlines r = d :: r2) : stripNewlines r = d :: stripNewlines r2 := by
  induction r with
  | nil => simp [skipNewlines] at h
  | cons c rest ih =>
    rw [skipNewlines] at h
    rw [stripNewlines_cons]
    split_ifs at h ⊢ with hc
    · exact ih h
    · simp only [List.cons.injEq] at h
      rw [h.1, h.2]

/-- An alphabet character in one of the first three places of a group can be
replaced by `A` without changing well-formedness. -/
theorem wellPadded_replace (j : Nat) (hj : j ≤ 2) (c : Nat) (hc : isBase64Char c = true)
    (t : GoString) :
    wellPadded (List.replicate j 65 ++ c :: t) = wellPadded (List.replicate (j + 1) 65 ++ t) := by
  have h65 : isBase64Char 65 = true := by decide
  interval_cases j
  · rcases t with _ | ⟨x, _ | ⟨y, _ | ⟨z, t⟩⟩⟩ <;> simp [wellPadded, hc, h65]
  · rcases t with _ | ⟨x, _ | ⟨y, t⟩⟩ <;> simp [wellPadded, hc, h65, List.replicate]
  · have hne : c ≠ padByte := by
      intro e; rw [e] at hc; exact absurd hc (by decide)
    have h65p : (65 == padByte) = false := by decide
    have hcp : (c == padByte) = false := by simpa using hne
    rcases t with _ | ⟨x, t⟩ <;> simp [wellPadded, hc, h65, List.replicate, hcp, h65p]

theorem wellPadded_fourth (c : Nat) (hc : isBase64Char c = true) (t : GoString) :
    wellPadded (List.replicate 3 65 ++ c :: t) = wellPadded t := by
  have h65 : isBase64Char 65 = true := by decide
  by_cases ht : t = []
  · simp [wellPadded, List.replicate, hc, h65, ht]
  · simp [wellPadded, List.replicate, hc, h65, ht]

theorem wellPadded_garbage (j : Nat) (hj : j ≤ 3) (c : Nat) (hc : isBase64Char c = false)
    (hp : c ≠ padByte) (t : GoString) :
    wellPadded (List.replicate j 65 ++ c :: t) = false := by
  interval_cases j
  · rcases t with _ | ⟨x, _ | ⟨y, _ | ⟨z, t⟩⟩⟩ <;> simp [wellPadded, hc]
  · rcases t with _ | ⟨x, _ | ⟨y, t⟩⟩ <;> simp [wellPadded, hc, List.replicate]
  · rcases t with _ | ⟨x, t⟩ <;> simp [wellPadded, hc, List.replicate, hp]
  · simp [wellPadded, hc, List.replicate, hp]

theorem wellPadded_early_pad (j : Nat) (hj : j < 2) (t : GoString) :
    wellPadded (List.replicate j 65 ++ padByte :: t) = false := by
  have hp : isBase64Char padByte = false := by decide
  interval_cases j
  · rcases t with _ | ⟨x, _ | ⟨y, _ | ⟨z, t⟩⟩⟩ <;> simp [wellPadded, hp]
  · rcases t with _ | ⟨x, _ | ⟨y, t⟩⟩ <;> simp [wellPadded, hp, List.replicate]

theorem wellPadded_pad2 (t : GoString) :
    wellPadded (List.replicate 2 65 ++ padByte :: t) = true ↔ t = [padByte] := by
  have hp : isBase64Char padByte = false := by decide
  have h65 : isBase64Char 65 = true := by decide
  rcases t with _ | ⟨x, t⟩
  · simp [wellPadded, List.replicate]
  · by_cases ht : t = []
    · simp [wellPadded, List.replicate, hp, h65, ht]
    · simp [wellPadded, List.replicate, hp, h65, ht]

theorem wellPadded_pad3 (t : GoString) :
    wellPadded (List.replicate 3 65 ++ padByte :: t) = true ↔ t = [] := by
  have hp : isBase64Char padByte = false := by decide
  have h65 : isBase64Char 65 = true := by decide
  by_cases ht : t = []
  · simp [wellPadded, List.replicate, hp, h65, ht]
  · simp [wellPadded, List.replicate, hp, h65, ht]

theorem isBase64Char_not_newline (c : Nat) (h : isBase64Char c = true) : ¬ (c = 10 ∨ c = 13) := by
  simp only [isBase64Char, Bool.or_eq_true, Bool.and_eq_true, decide_eq_true_eq,
    beq_iff_eq] at h
  omega

/-- The decoding loop succeeds exactly when the characters still to be read
complete a well-formed text, given the number of characters of the current
group already read. -/
theorem decodeLoop_ok_iff (s : GoString) :
    ∀ (dbuf : List Nat) (out : GoString), dbuf.length ≤ 3 →
      ((∃ r, decodeLoop s dbuf out = .ok r) ↔
        wellPadded (List.replicate dbuf.length 65 ++ stripNewlines s) = true) := by
  induction s with
  | nil =>
    intro dbuf out hd
    simp only [decodeLoop, stripNewlines, List.filter_nil, List.append_nil]
    have : dbuf.length = 0 ∨ dbuf.length = 1 ∨ dbuf.length = 2 ∨ dbuf.length = 3 := by omega
    rcases this with h | h | h | h <;> simp [h, wellPadded, List.replicate]
  | cons c rest ih =>
    intro dbuf out hd
    rw [decodeLoop, stripNewlines_cons]
    cases hm : decodeMap c with
    | some v =>
      have hb := decodeMap_some_isBase64Char c v hm
      have hnl := isBase64Char_not_newline c hb
      simp only [hnl, if_false]
      by_cases h3 : dbuf.length = 3
      · simp only [h3, if_true]
        rw [ih [] _ (by simp), wellPadded_fourth c hb]
        simp
      · simp only [h3, if_false]
        rw [ih (dbuf ++ [v]) out (by simp; omega), wellPadded_replace _ (by omega) c hb]
        simp
    | none =>
      have hb := (decodeMap_eq_none_iff c).mp hm
      simp only
      by_cases hnl : c = 10 ∨ c = 13
      · simp only [hnl, if_true]
        exact ih dbuf out hd
      · simp only [hnl, if_false]
        by_cases hp : c = padByte
        · subst hp
          simp only [ne_eq, not_true_eq_false, if_false]
          by_cases h2 : dbuf.length < 2
          · simp [h2, wellPadded_early_pad _ h2]
          · simp only [h2, if_false]
            by_cases h2e : dbuf.length = 2
            · simp only [h2e, if_true]
              rw [wellPadded_pad2]
              cases hs : skipNewlines rest with
              | nil =>
                have := (skipNewlines_nil_iff rest).mp hs
                simp [this]
              | cons d rest2 =>
                have hst := skipNewlines_cons rest d rest2 hs
                simp only [hst, List.cons.injEq]
                by_cases hd : d = padByte
                · by_cases hr : skipNewlines rest2 = []
                  · have := (skipNewlines_nil_iff rest2).mp hr
                    simp [hd, hr, this]
                  · have : stripNewlines rest2 ≠ [] :=
                      fun e => hr ((skipNewlines_nil_iff rest2).mpr e)
                    simp [hd, hr, this]
                · simp [hd]
            · have h3 : dbuf.length = 3 := by omega
              simp only [h2e, if_false, h3]
              rw [wellPadded_pad3, ← skipNewlines_nil_iff]
              by_cases hr : skipNewlines rest = [] <;> simp [hr]
        · simp [hp, wellPadded_garbage _ hd c hb hp]

/-- The base64 model fails exactly on texts that are not valid standard
base64. -/
theorem DecodeString_error_iff (s : GoString) :
    (∃ e, DecodeString s = .error e) ↔ ¬ IsStdBase64 s := by
  have h := decodeLoop_ok_iff s [] [] (by simp)
  simp only [List.length_nil, List.replicate_zero, List.nil_append] at h
  unfold IsStdBase64 DecodeString
  rw [← h]
  cases hd : decodeLoop s [] [] with
  | error e => simp
  | ok r => simp

/-! ## The tag loops -/

theorem countLanguage_append (a b : List GoString) :
    countLanguage (a ++ b) = countLanguage a + countLanguage b := by
  simp [countLanguage, List.filter_append]

theorem isValidLanguageTag_lead (tag : GoString) (h : isValidLanguageTag tag = true) :
    HasPrefix tag languageLead = true := by
  unfold isValidLanguageTag at h
  cases hp : HasPrefix tag languageLead
  · simp [hp] at h
  · rfl

theorem systemLead_not_language (tag : GoString)
    (h : (HasPrefix tag systemLead || HasPrefix tag adminLead) = true) :
    HasPrefix tag languageLead = false := by
  unfold HasPrefix systemLead adminLead languageLead at *
  cases tag with
  | nil => rfl
  | cons c rest =>
    by_cases hc : c = 108
    · subst hc
      simp [List.isPrefixOf] at h
    · simp [List.isPrefixOf, Ne.symm hc]

theorem countLanguage_heldSystemTags (uTags : List GoString) :
    countLanguage (heldSystemTags uTags) = 0 := by
  unfold countLanguage heldSystemTags
  rw [List.filter_filter, List.length_eq_zero, List.filter_eq_nil_iff]
  intro tag _ h
  simp only [Bool.and_eq_true] at h
  rw [systemLead_not_language tag h.2] at h
  exact absurd h.1 (by decide)

/-- When the first loop finishes, it has let through at most `3 - i` language
tags. -/
theorem applyLoop_count (staff : Bool) (tags : List GoString) :
    ∀ (i : Nat) (acc out : List GoString), applyLoop staff tags i acc = .ok out → i ≤ 3 →
      countLanguage out + i ≤ countLanguage acc + 3 := by
  induction tags with
  | nil =>
    intro i acc out h hi
    simp only [applyLoop, Except.ok.injEq] at h
    subst h
    omega
  | cons tag rest ih =>
    intro i acc out h hi
    unfold applyLoop at h
    cases hl : HasPrefix tag languageLead
    · cases staff
      · simp only [hl, Bool.not_false, Bool.and_self, if_true] at h
        exact ih i acc out h hi
      · simp only [hl, Bool.not_false, Bool.not_true, Bool.and_false, if_false] at h
        have := ih i (acc ++ [tag]) out (by simpa using h) hi
        rw [countLanguage_append] at this
        have h0 : countLanguage [tag] = 0 := by simp [countLanguage, hl]
        omega
    · simp only [hl, Bool.not_true, Bool.false_and, if_true] at h
      by_cases hv : isValidLanguageTag tag = true
      · by_cases h3 : i + 1 > 3
        · simp [hv, h3] at h
        · simp only [hv, Bool.not_true, h3, if_false] at h
          have := ih (i + 1) (acc ++ [tag]) out (by simpa using h) (by omega)
          rw [countLanguage_append] at this
          have h1 : countLanguage [tag] = 1 := by simp [countLanguage, hl]
          omega
      · simp [hv] at h

/-- With every language tag valid, a list that would take the counter past 3
ends the first loop with `ErrTooManyLanguageTagsInUserUpdate`. -/
theorem applyLoop_tooMany (staff : Bool) (tags : List GoString) :
    ∀ (i : Nat) (acc : List GoString),
      (∀ tag ∈ tags, HasPrefix tag languageLead = true → isValidLanguageTag tag = true) →
      i ≤ 3 → 3 < i + countLanguage tags →
      applyLoop staff tags i acc = .error .ErrTooManyLanguageTagsInUserUpdate := by
  induction tags with
  | nil =>
    intro i acc _ hi h
    simp [countLanguage] at h
    omega
  | cons tag rest ih =>
    intro i acc hall hi h
    have hrest : ∀ t ∈ rest, HasPrefix t languageLead = true → isValidLanguageTag t = true :=
      fun t ht => hall t (List.mem_cons_of_mem _ ht)
    unfold applyLoop
    cases hl : HasPrefix tag languageLead
    · have hc : countLanguage (tag :: rest) = countLanguage rest := by
        simp [countLanguage, List.filter_cons, hl]
      rw [hc] at h
      cases staff
      · simp only [Bool.not_false, Bool.and_self, if_true]
        exact ih i acc hrest hi h
      · simp only [Bool.not_false, Bool.not_true, Bool.and_false, if_false]
        simpa using ih i (acc ++ [tag]) hrest hi h
    · have hc : countLanguage (tag :: rest) = countLanguage rest + 1 := by
        simp [countLanguage, List.filter_cons, hl]
      rw [hc] at h
      have hv := hall tag (List.mem_cons_self _ _) hl
      simp only [Bool.not_true, Bool.false_and, if_true, hv]
      by_cases h3 : i + 1 > 3
      · simp [h3]
      · simp only [h3, if_false]
        simpa using ih (i + 1) (acc ++ [tag]) hrest (by omega) (by omega)

/-- A list with enough valid language tags to take the counter past 3 ends
the first loop with an error. -/
theorem applyLoop_fails (staff : Bool) (tags : List GoString) :
    ∀ (i : Nat) (acc : List GoString), i ≤ 3 → 3 < i + countValidLanguage tags →
      ∃ err, applyLoop staff tags i acc = .error err := by
  induction tags with
  | nil =>
    intro i acc hi h
    simp [countValidLanguage] at h
    omega
  | cons tag rest ih =>
    intro i acc hi h
    unfold applyLoop
    by_cases hv : isValidLanguageTag tag = true
    · have hl := isValidLanguageTag_lead tag hv
      have hc : countValidLanguage (tag :: rest) = countValidLanguage rest + 1 := by
        simp [countValidLanguage, List.filter_cons, hv]
      rw [hc] at h
      simp only [hl, Bool.not_true, Bool.false_and, if_true, hv]
      by_cases h3 : i + 1 > 3
      · exact ⟨.ErrTooManyLanguageTagsInUserUpdate, by simp [h3]⟩
      · simp only [h3, if_false]
        simpa using ih (i + 1) (acc ++ [tag]) (by omega) (by omega)
    · have hc : countValidLanguage (tag :: rest) = countValidLanguage rest := by
        simp [countValidLanguage, List.filter_cons, hv]
      rw [hc] at h
      cases hl : HasPrefix tag languageLead
      · cases staff
        · simp only [Bool.not_false, Bool.and_self, if_true]
          exact ih i acc hi h
        · simp only [Bool.not_false, Bool.not_true, Bool.and_false, if_false]
          simpa using ih i (acc ++ [tag]) hi h
      · simp only [Bool.not_true, Bool.false_and, if_true]
        exact ⟨.ErrInvalidLanguageTagInUserUpdate, by simp [hv]⟩

theorem countValidLanguage_le (tags : List GoString) :
    countValidLanguage tags ≤ countLanguage tags := by
  induction tags with
  | nil => simp [countValidLanguage, countLanguage]
  | cons tag rest ih =>
    unfold countValidLanguage countLanguage at *
    by_cases hv : isValidLanguageTag tag = true
    · have hl := isValidLanguageTag_lead tag hv
      simp only [List.filter_cons, hv, hl, if_true, List.length_cons]
      omega
    · cases hl : HasPrefix tag languageLead <;>
        simp only [List.filter_cons, hv, hl, if_true, if_false, List.length_cons,
          Bool.false_eq_true] <;> omega

/-- The outcome of the two identical tag checks, from the outcome of the first
loop. -/
theorem tagsChecks_eq (IsStaff : User → Bool) (u : User) (tags : List GoString) :
    UpdateUserRequest.TagsChecks IsStaff ⟨tags⟩ u = AddTagsRequest.TagsChecks IsStaff ⟨tags⟩ u :=
  rfl

/-! ## The search variables of the avatar listing -/

theorem readN_fields (c : Ctx) (v w : AvatarSearch) (h : readN c v = some w) :
    w.limitToReleaseStatus = v.limitToReleaseStatus ∧
    w.searchReleaseStatus = v.searchReleaseStatus := by
  unfold readN at h
  split_ifs at h
  · split at h
    · cases h
    · split_ifs at h
      cases h
      exact ⟨rfl, rfl⟩
  · cases h
    exact ⟨rfl, rfl⟩

theorem readOffset_fields (c : Ctx) (v w : AvatarSearch) (h : readOffset c v = some w) :
    w.limitToReleaseStatus = v.limitToReleaseStatus ∧
    w.searchReleaseStatus = v.searchReleaseStatus := by
  unfold readOffset at h
  split_ifs at h
  · split at h
    · cases h
    · split_ifs at h
      cases h
      exact ⟨rfl, rfl⟩
  · cases h
    exact ⟨rfl, rfl⟩

theorem readSearch_fields (IsStaff : User → Bool) (u : User) (c : Ctx) (v w : AvatarSearch)
    (h : readSearch IsStaff u c v = some w) :
    w.limitToReleaseStatus = v.limitToReleaseStatus ∧
    w.searchReleaseStatus = v.searchReleaseStatus := by
  unfold readSearch at h
  split_ifs at h
  · cases h
    exact ⟨rfl, rfl⟩
  · cases h
    exact ⟨rfl, rfl⟩

theorem readUser_guarded (c : Ctx) (v : AvatarSearch)
    (hl : v.limitToReleaseStatus = true) (hs : v.searchReleaseStatus = ReleaseStatusPublic) :
    ((readUser c v).limitToReleaseStatus = false → (readUser c v).searchSelf = true) ∧
    (readUser c v).searchReleaseStatus = ReleaseStatusPublic := by
  unfold readUser
  split_ifs <;> simp [hl, hs]

theorem readUserId_fields (c : Ctx) (v : AvatarSearch) :
    (readUserId c v).limitToReleaseStatus = v.limitToReleaseStatus ∧
    (readUserId c v).searchSelf = v.searchSelf ∧
    (readUserId c v).searchReleaseStatus = v.searchReleaseStatus := by
  unfold readUserId
  split_ifs <;> exact ⟨rfl, rfl, rfl⟩

theorem readTag_fields (c : Ctx) (v : AvatarSearch) :
    (readTag c v).limitToReleaseStatus = v.limitToReleaseStatus ∧
    (readTag c v).searchSelf = v.searchSelf ∧
    (readTag c v).searchReleaseStatus = v.searchReleaseStatus := by
  unfold readTag
  split_ifs <;> exact ⟨rfl, rfl, rfl⟩

theorem readNotag_fields (c : Ctx) (v : AvatarSearch) :
    (readNotag c v).limitToReleaseStatus = v.limitToReleaseStatus ∧
    (readNotag c v).searchSelf = v.searchSelf ∧
    (readNotag c v).searchReleaseStatus = v.searchReleaseStatus := by
  unfold readNotag
  split_ifs <;> exact ⟨rfl, rfl, rfl⟩

theorem readSort_fields (c : Ctx) (v : AvatarSearch) :
    (readSort c v).limitToReleaseStatus = v.limitToReleaseStatus ∧
    (readSort c v).searchSelf = v.searchSelf ∧
    (readSort c v).searchReleaseStatus = v.searchReleaseStatus := by
  unfold readSort
  split_ifs <;> exact ⟨rfl, rfl, rfl⟩

theorem readReleaseStatus_guarded (u : User) (c : Ctx) (v : AvatarSearch)
    (hl : v.limitToReleaseStatus = false → v.searchSelf = true)
    (hs : v.searchReleaseStatus = ReleaseStatusPublic) :
    (readReleaseStatus u c v).Guarded := by
  unfold readReleaseStatus AvatarSearch.Guarded
  by_cases h0 : c.query "releaseStatus" ≠ []
  · rw [if_pos h0]
    by_cases h1 : c.query "releaseStatus" = ReleaseStatusPublic
    · rw [if_pos h1]
      exact ⟨hl, Or.inl rfl⟩
    · rw [if_neg h1]
      by_cases h2 : c.query "releaseStatus" = ReleaseStatusPrivate
      · rw [if_pos h2]
        refine ⟨fun _ => ?_, Or.inr (Or.inl ⟨rfl, ?_⟩)⟩ <;>
          (show (if (!v.searchSelf) = true then true else v.searchSelf) = true) <;>
          cases v.searchSelf <;> rfl
      · rw [if_neg h2]
        by_cases h3 : c.query "releaseStatus" = ReleaseStatusHidden
        · rw [if_pos h3]
          exact ⟨hl, Or.inr (Or.inr rfl)⟩
        · rw [if_neg h3]
          exact ⟨hl, Or.inl hs⟩
  · rw [if_neg h0]
    exact ⟨hl, Or.inl hs⟩

theorem readFilters_guarded (u : User) (c : Ctx) (v : AvatarSearch)
    (hl : v.limitToReleaseStatus = true) (hs : v.searchReleaseStatus = ReleaseStatusPublic) :
    (readFilters u c v).Guarded := by
  unfold readFilters
  obtain ⟨h1, h2⟩ := readUser_guarded c v hl hs
  obtain ⟨a1, a2, a3⟩ := readUserId_fields c (readUser c v)
  obtain ⟨b1, b2, b3⟩ := readTag_fields c (readUserId c (readUser c v))
  obtain ⟨c1, c2, c3⟩ := readNotag_fields c (readTag c (readUserId c (readUser c v)))
  have g := readReleaseStatus_guarded u c (readNotag c (readTag c (readUserId c (readUser c v))))
    (by rw [c1, c2, b1, b2, a1, a2]; exact h1) (by rw [c3, b3, a3]; exact h2)
  obtain ⟨d1, d2, d3⟩ := readSort_fields c
    (readReleaseStatus u c (readNotag c (readTag c (readUserId c (readUser c v)))))
  unfold AvatarSearch.Guarded at g ⊢
  rw [d1, d2, d3]
  exact g

theorem searchWheres_self (u : User) (v : AvatarSearch) (h : v.searchSelf = true) :
    Where.authorId u.ID ∈ searchWheres u v := by
  simp [searchWheres, h]

theorem statusForbidden_hidden (u : User) (v : AvatarSearch)
    (hdev : u.DeveloperType ≠ internalType)
    (h : v.searchReleaseStatus = ReleaseStatusHidden) : statusForbidden u v = true := by
  have hne : v.searchReleaseStatus ≠ ReleaseStatusPublic := by rw [h]; decide
  unfold statusForbidden
  rw [if_pos hne, if_pos ⟨h, hdev⟩]

/-! ## Properties of the middlewares -/

/-- C1: a request whose `apiKey` query parameter and `apiKey` cookie are both
empty is answered by `ApiKeyMiddleware` with status 401 and the body
`ErrMissingCredentialsResponse`, and the next handler is not called. -/
theorem apiKey_missing_rejected (env : Env) (c : Ctx)
    (hq : c.query "apiKey" = []) (hc : c.cookies "apiKey" = []) :
    (ApiKeyMiddleware env c).flow = .done ∧
    (ApiKeyMiddleware env c).flow ≠ .next ∧
    (ApiKeyMiddleware env c).ctx.resp.status = 401 ∧
    (ApiKeyMiddleware env c).ctx.resp.body = some .ErrMissingCredentialsResponse := by
  simp [ApiKeyMiddleware, hq, hc, Ctx.reply]

theorem apiKey_missing_rejected_witness :
    (ApiKeyMiddleware sampleEnv emptyCtx).flow = .done ∧
    (ApiKeyMiddleware sampleEnv emptyCtx).flow ≠ .next ∧
    (ApiKeyMiddleware sampleEnv emptyCtx).ctx.resp.status = 401 ∧
    (ApiKeyMiddleware sampleEnv emptyCtx).ctx.resp.body = some .ErrMissingCredentialsResponse :=
  apiKey_missing_rejected sampleEnv emptyCtx rfl rfl

/-- C3: with a resolved account in the `user` local, `MfaMiddleware` calls the
next handler exactly when the account has MFA disabled or the `twoFactorAuth`
cookie is non-empty; an MFA-disabled account passes whatever the cookie, and
an MFA-enabled account passes with any non-empty cookie. -/
theorem mfa_pass_iff (c : Ctx) (u : User) (hu : c.locals "user" = some (.user u)) :
    ((MfaMiddleware c).flow = .next ↔
      (u.MfaEnabled = false ∨ c.cookies "twoFactorAuth" ≠ [])) ∧
    (u.MfaEnabled = false → (MfaMiddleware c).flow = .next) ∧
    (u.MfaEnabled = true → c.cookies "twoFactorAuth" ≠ [] →
      (MfaMiddleware c).flow = .next) := by
  unfold MfaMiddleware
  rw [hu]
  cases hm : u.MfaEnabled <;> by_cases hk : c.cookies "twoFactorAuth" = [] <;> simp [hk, hm]

theorem mfa_pass_iff_witness :
    ((MfaMiddleware { emptyCtx with locals := fun _ => some (.user mfaUser),
                                     cookies := fun _ => [120] }).flow = .next ↔
      (mfaUser.MfaEnabled = false ∨ [120] ≠ ([] : GoString))) ∧
    (MfaMiddleware { emptyCtx with locals := fun _ => some (.user plainUser) }).flow = .next ∧
    (MfaMiddleware { emptyCtx with locals := fun _ => some (.user mfaUser),
                                    cookies := fun _ => [120] }).flow = .next :=
  ⟨(mfa_pass_iff { emptyCtx with locals := fun _ => some (.user mfaUser),
                                 cookies := fun _ => [120] } mfaUser rfl).1,
   (mfa_pass_iff { emptyCtx with locals := fun _ => some (.user plainUser) }
      plainUser rfl).2.1 rfl,
   (mfa_pass_iff { emptyCtx with locals := fun _ => some (.user mfaUser),
                                 cookies := fun _ => [120] } mfaUser rfl).2.2 rfl
      (by decide)⟩

/-- C4: when the resolved account has MFA enabled and the `twoFactorAuth`
cookie is empty or absent, `MfaMiddleware` answers 401 with
`ErrTwoFactorAuthenticationRequiredResponse` and does not call the next
handler. -/
theorem mfa_required_rejected (c : Ctx) (u : User)
    (hu : c.locals "user" = some (.user u)) (hm : u.MfaEnabled = true)
    (hk : c.cookies "twoFactorAuth" = []) :
    (MfaMiddleware c).flow = .done ∧
    (MfaMiddleware c).flow ≠ .next ∧
    (MfaMiddleware c).ctx.resp.status = 401 ∧
    (MfaMiddleware c).ctx.resp.body =
      some .ErrTwoFactorAuthenticationRequiredResponse := by
  unfold MfaMiddleware
  rw [hu]
  simp [hm, hk, Ctx.reply]

theorem mfa_required_rejected_witness :
    (MfaMiddleware { emptyCtx with locals := fun _ => some (.user mfaUser) }).flow = .done ∧
    (MfaMiddleware { emptyCtx with locals := fun _ => some (.user mfaUser) }).flow ≠ .next ∧
    (MfaMiddleware { emptyCtx with locals := fun _ => some (.user mfaUser) }).ctx.resp.status
      = 401 ∧
    (MfaMiddleware { emptyCtx with locals := fun _ => some (.user mfaUser) }).ctx.resp.body =
      some .ErrTwoFactorAuthenticationRequiredResponse :=
  mfa_required_rejected { emptyCtx with locals := fun _ => some (.user mfaUser) } mfaUser
    rfl rfl rfl

/-- C5: `MfaMiddleware` never continues without a resolved account.  With the
`user` local unset it answers 401 `ErrMissingCredentialsResponse`; and whenever
it calls the next handler, the `user` local held an account before the gate and
the locals are the same after it. -/
theorem mfa_next_has_account (c : Ctx) :
    (c.locals "user" = none →
      (MfaMiddleware c).flow = .done ∧
      (MfaMiddleware c).ctx.resp.status = 401 ∧
      (MfaMiddleware c).ctx.resp.body = some .ErrMissingCredentialsResponse) ∧
    ((MfaMiddleware c).flow = .next →
      (∃ u, c.locals "user" = some (.user u)) ∧
      (MfaMiddleware c).ctx.locals "user" ≠ none ∧
      (MfaMiddleware c).ctx.locals = c.locals) := by
  unfold MfaMiddleware
  constructor
  · intro h
    rw [h]
    simp [Ctx.reply]
  · intro h
    split at h
    · simp at h
    · simp at h
    · rename_i user hu
      rw [hu]
      refine ⟨⟨user, rfl⟩, ?_, ?_⟩ <;> split_ifs <;> simp_all [Ctx.reply]

theorem mfa_next_has_account_witness :
    ((MfaMiddleware emptyCtx).flow = .done ∧
      (MfaMiddleware emptyCtx).ctx.resp.status = 401 ∧
      (MfaMiddleware emptyCtx).ctx.resp.body = some .ErrMissingCredentialsResponse) ∧
    ((∃ u, ({ emptyCtx with locals := fun _ => some (.user plainUser) } : Ctx).locals "user"
        = some (.user u)) ∧
      (MfaMiddleware { emptyCtx with locals := fun _ => some (.user plainUser) }).ctx.locals
        "user" ≠ none ∧
      (MfaMiddleware { emptyCtx with locals := fun _ => some (.user plainUser) }).ctx.locals =
        ({ emptyCtx with locals := fun _ => some (.user plainUser) } : Ctx).locals) :=
  ⟨(mfa_next_has_account emptyCtx).1 rfl,
   (mfa_next_has_account { emptyCtx with locals := fun _ => some (.user plainUser) }).2 rfl⟩

/-- C9, as stated, fails: with the stored cookie `old` and the freshly issued
request-scoped token `tok`, `AuthMiddleware` validates `old` and never `tok`. -/
theorem auth_prefers_fresh_token_fails :
    ({ emptyCtx with cookies := fun k => if k = "auth" then [111, 108, 100] else [],
                     locals := fun k => if k = "authCookie" then
                       some (.str [116, 111, 107]) else none } : Ctx).cookies "auth" ≠ [] ∧
    validatedTokens (AuthMiddleware sampleEnv
      { emptyCtx with cookies := fun k => if k = "auth" then [111, 108, 100] else [],
                      locals := fun k => if k = "authCookie" then
                        some (.str [116, 111, 107]) else none }).trace = [[111, 108, 100]] ∧
    (AuthMiddleware sampleEnv
      { emptyCtx with cookies := fun k => if k = "auth" then [111, 108, 100] else [],
                      locals := fun k => if k = "authCookie" then
                        some (.str [116, 111, 107]) else none }).flow = .done := by
  refine ⟨by decide, ?_, ?_⟩ <;> rfl

/-- C9, amended: whenever the stored `auth` cookie is non-empty, `AuthMiddleware`
validates that cookie and nothing else, whatever the `authCookie` local holds;
the request-scoped token is the one validated only when the `auth` cookie is
empty. -/
theorem auth_validates_stored_cookie_first (env : Env) (c : Ctx) :
    (c.cookies "auth" ≠ [] →
      validatedTokens (AuthMiddleware env c).trace = [c.cookies "auth"]) ∧
    (∀ fresh, c.cookies "auth" = [] → c.locals "authCookie" = some (.str fresh) →
      fresh ≠ [] → validatedTokens (AuthMiddleware env c).trace = [fresh]) := by
  constructor
  · intro h
    simp only [AuthMiddleware, h, if_false, authValidate]
    split
    · rfl
    · split <;> rfl
  · intro fresh h0 hl hf
    simp only [AuthMiddleware, h0, hl, hf, if_true, if_false, authValidate]
    split
    · rfl
    · split <;> rfl

theorem auth_validates_stored_cookie_first_witness :
    validatedTokens (AuthMiddleware sampleEnv
      { emptyCtx with cookies := fun k => if k = "auth" then [111, 108, 100] else [],
                      locals := fun k => if k = "authCookie" then
                        some (.str [116, 111, 107]) else none }).trace = [[111, 108, 100]] ∧
    validatedTokens (AuthMiddleware sampleEnv
      { emptyCtx with locals := fun k => if k = "authCookie" then
                        some (.str [116, 111, 107]) else none }).trace = [[116, 111, 107]] :=
  ⟨(auth_validates_stored_cookie_first sampleEnv
      { emptyCtx with cookies := fun k => if k = "auth" then [111, 108, 100] else [],
                      locals := fun k => if k = "authCookie" then
                        some (.str [116, 111, 107]) else none }).1 (by decide),
   (auth_validates_stored_cookie_first sampleEnv
      { emptyCtx with locals := fun k => if k = "authCookie" then
                        some (.str [116, 111, 107]) else none }).2 [116, 111, 107]
      rfl rfl (by decide)⟩

/-- C10, as stated, fails when the configured secret is the empty string: a
request without any key has the empty effective key, equal to the secret, and
is still rejected. -/
theorem apiKey_iff_effective_fails :
    ¬ ((ApiKeyMiddleware { sampleEnv with apiKey := [] } emptyCtx).flow = .next ↔
        effectiveApiKey emptyCtx = ({ sampleEnv with apiKey := [] } : Env).apiKey) := by
  intro h
  have h1 : (ApiKeyMiddleware { sampleEnv with apiKey := [] } emptyCtx).flow = .next :=
    h.mpr rfl
  exact absurd h1 (by decide)

/-- C10, amended: `ApiKeyMiddleware` calls the next handler exactly when the
effective API key is non-empty and equals the configured secret.  A non-empty
query parameter takes precedence: a wrong query key is rejected, and the
outcome does not depend on the cookies at all. -/
theorem apiKey_next_iff (env : Env) (c : Ctx) :
    ((ApiKeyMiddleware env c).flow = .next ↔
      (effectiveApiKey c ≠ [] ∧ effectiveApiKey c = env.apiKey)) ∧
    (c.query "apiKey" ≠ [] → c.query "apiKey" ≠ env.apiKey →
      (ApiKeyMiddleware env c).flow = .done) ∧
    (c.query "apiKey" ≠ [] → ∀ ck : String → GoString,
      (ApiKeyMiddleware env { c with cookies := ck }).flow = (ApiKeyMiddleware env c).flow) := by
  refine ⟨?_, ?_, ?_⟩
  · have key : ∀ k, (apiKeyCheck env c k).flow = .next ↔ k = env.apiKey := by
      intro k
      unfold apiKeyCheck
      by_cases hk : k = env.apiKey
      · rw [if_neg (not_not.mpr hk)]; exact ⟨fun _ => hk, fun _ => rfl⟩
      · rw [if_pos hk]; exact ⟨fun h => Flow.noConfusion h, fun h => absurd h hk⟩
    unfold ApiKeyMiddleware effectiveApiKey
    by_cases hq : c.query "apiKey" = []
    · by_cases hk : c.cookies "apiKey" = []
      · simp only [hq, hk, if_true, ne_eq, not_true_eq_false, if_false, false_and]
        decide
      · simp only [hq, hk, if_true, if_false, ne_eq, not_true_eq_false, not_false_eq_true,
          true_and]
        exact key _
    · simp only [hq, if_false, ne_eq, not_false_eq_true, if_true, true_and]
      exact key _
  · intro hq hne
    simp [ApiKeyMiddleware, apiKeyCheck, hq, hne]
  · intro hq ck
    simp only [ApiKeyMiddleware, apiKeyCheck, hq, if_false]
    split_ifs <;> rfl

theorem apiKey_next_iff_witness :
    ((ApiKeyMiddleware sampleEnv
        { emptyCtx with query := fun _ => [107, 101, 121] }).flow = .next ↔
      (effectiveApiKey { emptyCtx with query := fun _ => [107, 101, 121] } ≠ [] ∧
       effectiveApiKey { emptyCtx with query := fun _ => [107, 101, 121] } =
         sampleEnv.apiKey)) ∧
    (ApiKeyMiddleware sampleEnv
        { emptyCtx with query := fun _ => [120], cookies := fun _ => [107, 101, 121] }).flow
      = .done ∧
    (ApiKeyMiddleware sampleEnv
        { ({ emptyCtx with query := fun _ => [120] } : Ctx) with
            cookies := fun _ => [107, 101, 121] }).flow =
      (ApiKeyMiddleware sampleEnv { emptyCtx with query := fun _ => [120] }).flow :=
  ⟨(apiKey_next_iff sampleEnv { emptyCtx with query := fun _ => [107, 101, 121] }).1,
   (apiKey_next_iff sampleEnv
      { emptyCtx with query := fun _ => [120], cookies := fun _ => [107, 101, 121] }).2.1
      (by decide) (by decide),
   (apiKey_next_iff sampleEnv { emptyCtx with query := fun _ => [120] }).2.2
      (by decide) (fun _ => [107, 101, 121])⟩

/-- C2: for a non-empty `Authorization` header that is well-formed Basic auth
(scheme `Basic`, a payload that base64-decodes, a colon in the decoded payload,
both parts percent-decodable), and for every account store: when the password
check for the looked-up account does not succeed, `DoLoginMiddleware` answers
401 with `ErrInvalidCredentialsResponse`, not `ErrMissingCredentialsResponse`,
does not call the next handler, sets no cookie and leaves the locals (so `user`
and `authCookie`) untouched. -/
theorem login_wrong_password_rejected (env : Env) (c : Ctx)
    (payload raw p q username password : GoString)
    (hh : c.header "Authorization" = basicScheme ++ spaceByte :: payload)
    (hb : DecodeString payload = .ok raw)
    (hc : raw = p ++ colonByte :: q) (hp : colonByte ∉ p)
    (hu : QueryUnescape p = .ok username) (hq : QueryUnescape q = .ok password)
    (hpw : ∀ u, env.dbFirst { Username := username } = .ok u →
      env.checkPassword u password ≠ (true, none)) :
    (DoLoginMiddleware env c).flow = .done ∧
    (DoLoginMiddleware env c).flow ≠ .next ∧
    (DoLoginMiddleware env c).ctx.resp.status = 401 ∧
    (DoLoginMiddleware env c).ctx.resp.body = some .ErrInvalidCredentialsResponse ∧
    (DoLoginMiddleware env c).ctx.resp.body ≠ some .ErrMissingCredentialsResponse ∧
    (DoLoginMiddleware env c).ctx.resp.cookies = c.resp.cookies ∧
    (DoLoginMiddleware env c).ctx.locals "user" = c.locals "user" ∧
    (DoLoginMiddleware env c).ctx.locals "authCookie" = c.locals "authCookie" := by
  have hne : c.header "Authorization" ≠ [] := by rw [hh]; simp [basicScheme]
  have hparse : parseVrchatBasicAuth (c.header "Authorization") = (username, password, none) := by
    rw [hh, parse_basic, hb]
    simp only
    rw [hc, SplitN2_append colonByte p q hp]
    simp only [hu, hq]
  obtain ⟨h1, h2, h3, h4, h5⟩ := login_of_failed_check env c username password hne hparse hpw
  refine ⟨h1, ?_, h2, h3, ?_, h4, ?_, ?_⟩
  · rw [h1]; decide
  · rw [h3]; decide
  · rw [h5]
  · rw [h5]

theorem login_wrong_password_rejected_witness :
    (DoLoginMiddleware sampleEnv (withAuthorization
      [66, 97, 115, 105, 99, 32, 89, 87, 120, 112, 89, 50, 85, 54, 101, 65, 61, 61])).flow
        = .done ∧
    (DoLoginMiddleware sampleEnv (withAuthorization
      [66, 97, 115, 105, 99, 32, 89, 87, 120, 112, 89, 50, 85, 54, 101, 65, 61, 61])).ctx.resp.body
        = some .ErrInvalidCredentialsResponse :=
  have h := login_wrong_password_rejected sampleEnv
    (withAuthorization
      [66, 97, 115, 105, 99, 32, 89, 87, 120, 112, 89, 50, 85, 54, 101, 65, 61, 61])
    [89, 87, 120, 112, 89, 50, 85, 54, 101, 65, 61, 61]
    [97, 108, 105, 99, 101, 58, 120] [97, 108, 105, 99, 101] [120]
    [97, 108, 105, 99, 101] [120] rfl rfl rfl (by decide) rfl rfl
    (fun u _ => by simp [sampleEnv])
  ⟨h.1, h.2.2.2.1⟩

/-- C6, what the code does where the claim expects a 401: the malformed
headers `Bearer x` (scheme not `Basic`), `Basic` (no space-separated payload)
and `Basic QQ==` (decoded payload `A`, no colon) all parse to the empty
username and password with a nil error, so `DoLoginMiddleware` goes on to the
lookup and the password check with empty credentials.  Against a store that
returns an account for the empty username and accepts the empty password the
request is not rejected: it continues, logged in as that account, with a
session created for it. -/
theorem login_malformed_always_rejected_fails :
    (withAuthorization [66, 101, 97, 114, 101, 114, 32, 120]).header "Authorization" ≠ [] ∧
    parseVrchatBasicAuth [66, 101, 97, 114, 101, 114, 32, 120] = ([], [], none) ∧
    (DoLoginMiddleware openEnv
      (withAuthorization [66, 101, 97, 114, 101, 114, 32, 120])).flow = .next ∧
    (DoLoginMiddleware openEnv
      (withAuthorization [66, 101, 97, 114, 101, 114, 32, 120])).ctx.locals "user" =
        some (.user { ID := [117, 49], Username := [97, 108, 105, 99, 101] }) ∧
    (DoLoginMiddleware openEnv
      (withAuthorization [66, 101, 97, 114, 101, 114, 32, 120])).trace =
        [.dbFirst {}, .checkPassword { ID := [117, 49], Username := [97, 108, 105, 99, 101] } [],
         .createAuthCookie { ID := [117, 49], Username := [97, 108, 105, 99, 101] } [49]] ∧
    parseVrchatBasicAuth [66, 97, 115, 105, 99] = ([], [], none) ∧
    (DoLoginMiddleware openEnv (withAuthorization [66, 97, 115, 105, 99])).flow = .next ∧
    parseVrchatBasicAuth [66, 97, 115, 105, 99, 32, 81, 81, 61, 61] = ([], [], none) ∧
    (DoLoginMiddleware openEnv
      (withAuthorization [66, 97, 115, 105, 99, 32, 81, 81, 61, 61])).flow = .next := by
  refine ⟨by decide, by decide, ?_, ?_, ?_, by decide, ?_, by decide, ?_⟩ <;> rfl

/-- C8: round trip of the Basic-Auth parser.  For every username `u` and
password `p` (byte strings), parsing `"Basic " + base64(enc(u) + ":" + enc(p))`
returns exactly `(u, p)` with a nil error, where `base64` is standard padded
base64 and `enc` percent-encodes every byte that is not an ASCII letter, a
digit, `-`, `_`, `.` or `~`.  The decoded payload is split at its first colon:
whatever follows it, further colons included, is the password part. -/
theorem parse_roundtrip (u p : GoString) (hu : IsBytes u) (hp : IsBytes p) :
    parseVrchatBasicAuth
        (basicScheme ++ spaceByte ::
          base64Encode (percentEncode u ++ colonByte :: percentEncode p)) = (u, p, none) ∧
    (∀ a b : GoString, IsBytes a → IsBytes b → colonByte ∉ a →
      unescapeCheck a = true → unescapeCheck b = true →
      parseVrchatBasicAuth (basicScheme ++ spaceByte :: base64Encode (a ++ colonByte :: b)) =
        (unescapeBuild a, unescapeBuild b, none)) := by
  have split : ∀ a b : GoString, IsBytes a → IsBytes b → colonByte ∉ a →
      unescapeCheck a = true → unescapeCheck b = true →
      parseVrchatBasicAuth (basicScheme ++ spaceByte :: base64Encode (a ++ colonByte :: b)) =
        (unescapeBuild a, unescapeBuild b, none) := by
    intro a b ha hb hca hua hub
    have hraw : IsBytes (a ++ colonByte :: b) := by
      intro x hx
      simp only [List.mem_append, List.mem_cons] at hx
      rcases hx with hx | rfl | hx
      · exact ha x hx
      · decide
      · exact hb x hx
    rw [parse_basic, DecodeString_base64Encode _ hraw]
    simp only
    rw [SplitN2_append colonByte a b hca]
    simp [QueryUnescape, hua, hub]
  refine ⟨?_, split⟩
  have h := split (percentEncode u) (percentEncode p) (isBytes_percentEncode u hu)
    (isBytes_percentEncode p hp) (colon_not_mem_percentEncode u)
    (unescapeCheck_percentEncode u hu) (unescapeCheck_percentEncode p hp)
  rw [h, unescapeBuild_percentEncode u hu, unescapeBuild_percentEncode p hp]

theorem parse_roundtrip_witness :
    parseVrchatBasicAuth
        (basicScheme ++ spaceByte ::
          base64Encode (percentEncode [97, 58, 255] ++ colonByte :: percentEncode [32, 58, 120]))
      = ([97, 58, 255], [32, 58, 120], none) :=
  (parse_roundtrip [97, 58, 255] [32, 58, 120] (by decide) (by decide)).1

/-- C7: for a header `Basic <payload>` whose payload is not valid standard
base64, or whose decoded payload has a username or password part with an
invalid percent-escape, `parseVrchatBasicAuth` returns a non-nil error and
`DoLoginMiddleware` answers 401 `ErrInvalidCredentialsResponse` without
calling the next handler (and without any lookup). -/
theorem login_undecodable_rejected (env : Env) (c : Ctx) (payload : GoString)
    (hh : c.header "Authorization" = basicScheme ++ spaceByte :: payload)
    (hbad : ¬ IsStdBase64 payload ∨
      ∃ raw p q, DecodeString payload = .ok raw ∧ raw = p ++ colonByte :: q ∧
        colonByte ∉ p ∧ (hasInvalidEscape p = true ∨ hasInvalidEscape q = true)) :
    (∃ e, (parseVrchatBasicAuth (c.header "Authorization")).2.2 = some e) ∧
    (DoLoginMiddleware env c).flow = .done ∧
    (DoLoginMiddleware env c).flow ≠ .next ∧
    (DoLoginMiddleware env c).ctx.resp.status = 401 ∧
    (DoLoginMiddleware env c).ctx.resp.body = some .ErrInvalidCredentialsResponse ∧
    (DoLoginMiddleware env c).trace = [] := by
  have hne : c.header "Authorization" ≠ [] := by rw [hh]; simp [basicScheme]
  have hparse : ∃ e, parseVrchatBasicAuth (c.header "Authorization") = ([], [], some e) := by
    rw [hh, parse_basic]
    rcases hbad with hb | ⟨raw, p, q, hd, hraw, hp, hesc⟩
    · obtain ⟨e, he⟩ := (DecodeString_error_iff payload).mpr hb
      exact ⟨e, by rw [he]⟩
    · rw [hd]
      simp only
      rw [hraw, SplitN2_append colonByte p q hp]
      simp only
      cases hup : QueryUnescape p with
      | error e => exact ⟨e, rfl⟩
      | ok username =>
        rcases hesc with h | h
        · rw [(QueryUnescape_error_iff p).mpr h] at hup
          cases hup
        · rw [(QueryUnescape_error_iff q).mpr h]
          exact ⟨_, rfl⟩
  obtain ⟨e, he⟩ := hparse
  have hlogin := login_of_parse_error env c [] [] e hne he
  refine ⟨⟨e, by rw [he]⟩, ?_, ?_, ?_, ?_, ?_⟩ <;> rw [hlogin]
  · exact fun h => Flow.noConfusion h
  · rfl
  · rfl

theorem login_undecodable_rejected_witness :
    ((DoLoginMiddleware sampleEnv (withAuthorization
        [66, 97, 115, 105, 99, 32, 33, 33, 33])).flow = .done ∧
      (DoLoginMiddleware sampleEnv (withAuthorization
        [66, 97, 115, 105, 99, 32, 33, 33, 33])).ctx.resp.body
          = some .ErrInvalidCredentialsResponse) ∧
    ((DoLoginMiddleware sampleEnv (withAuthorization
        [66, 97, 115, 105, 99, 32, 81, 84, 111, 108, 78, 65, 61, 61])).flow = .done ∧
      (DoLoginMiddleware sampleEnv (withAuthorization
        [66, 97, 115, 105, 99, 32, 81, 84, 111, 108, 78, 65, 61, 61])).ctx.resp.body
          = some .ErrInvalidCredentialsResponse) :=
  have h1 := login_undecodable_rejected sampleEnv
    (withAuthorization [66, 97, 115, 105, 99, 32, 33, 33, 33]) [33, 33, 33] rfl
    (Or.inl (by decide))
  have h2 := login_undecodable_rejected sampleEnv
    (withAuthorization [66, 97, 115, 105, 99, 32, 81, 84, 111, 108, 78, 65, 61, 61])
    [81, 84, 111, 108, 78, 65, 61, 61] rfl
    (Or.inr ⟨[65, 58, 37, 52], [65], [37, 52], rfl, rfl, by decide, Or.inr rfl⟩)
  ⟨⟨h1.2.1, h1.2.2.2.2.1⟩, ⟨h2.2.1, h2.2.2.2.2.1⟩⟩

/-- C11: for a well-formed Basic-Auth request whose account is found, whose
password verifies and for which session creation returns the token `t`,
`DoLoginMiddleware` calls the next handler, stores the account in the `user`
local and `t` in the `authCookie` local, and adds an `auth` response cookie
with value `t` that expires exactly 24 hours after the current time. -/
theorem login_success_sets_session (env : Env) (c : Ctx)
    (payload raw p q username password t : GoString) (u : User)
    (hh : c.header "Authorization" = basicScheme ++ spaceByte :: payload)
    (hb : DecodeString payload = .ok raw)
    (hc : raw = p ++ colonByte :: q) (hp : colonByte ∉ p)
    (hu : QueryUnescape p = .ok username) (hq : QueryUnescape q = .ok password)
    (hdb : env.dbFirst { Username := username } = .ok u)
    (hck : env.checkPassword u password = (true, none))
    (hs : env.createAuthCookie u c.ip false = .ok t) :
    (DoLoginMiddleware env c).flow = .next ∧
    (DoLoginMiddleware env c).ctx.locals "user" = some (.user u) ∧
    (DoLoginMiddleware env c).ctx.locals "authCookie" = some (.str t) ∧
    (DoLoginMiddleware env c).ctx.resp.cookies = c.resp.cookies ++
      [{ Name := "auth", Value := t, Expires := some (env.now + 24 * 3600),
         SameSite := "disabled" }] := by
  have hne : c.header "Authorization" ≠ [] := by rw [hh]; simp [basicScheme]
  have hparse : parseVrchatBasicAuth (c.header "Authorization") = (username, password, none) := by
    rw [hh, parse_basic, hb]
    simp only
    rw [hc, SplitN2_append colonByte p q hp]
    simp only [hu, hq]
  unfold DoLoginMiddleware
  simp only [hne, ne_eq, not_false_eq_true, if_true, hparse, hdb, hck, hs]
  simp [Ctx.setCookie, Ctx.setLocal]

theorem login_success_sets_session_witness :
    (DoLoginMiddleware sampleEnv (withAuthorization aliceHeader)).flow = .next ∧
    (DoLoginMiddleware sampleEnv (withAuthorization aliceHeader)).ctx.locals "user" =
      some (.user plainUser) ∧
    (DoLoginMiddleware sampleEnv (withAuthorization aliceHeader)).ctx.locals "authCookie" =
      some (.str [116, 111, 107]) ∧
    (DoLoginMiddleware sampleEnv (withAuthorization aliceHeader)).ctx.resp.cookies =
      (withAuthorization aliceHeader).resp.cookies ++
      [{ Name := "auth", Value := [116, 111, 107], Expires := some (sampleEnv.now + 24 * 3600),
         SameSite := "disabled" }] :=
  login_success_sets_session sampleEnv (withAuthorization aliceHeader)
    [89, 87, 120, 112, 89, 50, 85, 54, 99, 72, 99, 61]
    [97, 108, 105, 99, 101, 58, 112, 119] [97, 108, 105, 99, 101] [112, 119]
    [97, 108, 105, 99, 101] [112, 119] [116, 111, 107] plainUser
    rfl rfl rfl (by decide) rfl rfl rfl rfl rfl

/-- C12, what the code does where the claim asks for the error envelope: when
the credentials verify and `CreateAuthCookie` returns an error,
`DoLoginMiddleware` answers 500 with the body `{"error": "Failed to create auth
cookie"}`, whose `error` member is a bare string; it is not the envelope
`{"error": {"message": ..., "status_code": 500}}` for any message. -/
theorem login_session_failure_body (env : Env) (c : Ctx)
    (payload raw p q username password : GoString) (u : User) (e : GoError)
    (hh : c.header "Authorization" = basicScheme ++ spaceByte :: payload)
    (hb : DecodeString payload = .ok raw)
    (hc : raw = p ++ colonByte :: q) (hp : colonByte ∉ p)
    (hu : QueryUnescape p = .ok username) (hq : QueryUnescape q = .ok password)
    (hdb : env.dbFirst { Username := username } = .ok u)
    (hck : env.checkPassword u password = (true, none))
    (hs : env.createAuthCookie u c.ip false = .error e) :
    (DoLoginMiddleware env c).flow = .done ∧
    (DoLoginMiddleware env c).ctx.resp.status = 500 ∧
    (DoLoginMiddleware env c).ctx.resp.body =
      some (.fiberMap [("error", "Failed to create auth cookie")]) ∧
    (∀ message : String,
      fiberMapJson [("error", "Failed to create auth cookie")] ≠ errorEnvelope message 500) := by
  have hne : c.header "Authorization" ≠ [] := by rw [hh]; simp [basicScheme]
  have hparse : parseVrchatBasicAuth (c.header "Authorization") = (username, password, none) := by
    rw [hh, parse_basic, hb]
    simp only
    rw [hc, SplitN2_append colonByte p q hp]
    simp only [hu, hq]
  unfold DoLoginMiddleware
  simp only [hne, ne_eq, not_false_eq_true, if_true, hparse, hdb, hck, hs]
  refine ⟨by simp, by simp [Ctx.reply], by simp [Ctx.reply], ?_⟩
  intro message h
  simp [fiberMapJson, errorEnvelope] at h

theorem login_session_failure_body_witness :
    (DoLoginMiddleware brokenSessionEnv (withAuthorization aliceHeader)).flow = .done ∧
    (DoLoginMiddleware brokenSessionEnv (withAuthorization aliceHeader)).ctx.resp.status = 500 ∧
    (DoLoginMiddleware brokenSessionEnv (withAuthorization aliceHeader)).ctx.resp.body =
      some (.fiberMap [("error", "Failed to create auth cookie")]) ∧
    (∀ message : String,
      fiberMapJson [("error", "Failed to create auth cookie")] ≠ errorEnvelope message 500) :=
  login_session_failure_body brokenSessionEnv (withAuthorization aliceHeader)
    [89, 87, 120, 112, 89, 50, 85, 54, 99, 72, 99, 61]
    [97, 108, 105, 99, 101, 58, 112, 119] [97, 108, 105, 99, 101] [112, 119]
    [97, 108, 105, 99, 101] [112, 119] plainUser (.other 3)
    rfl rfl rfl (by decide) rfl rfl rfl rfl rfl

/-- C13: with an empty `auth` cookie and no non-empty string in the
`authCookie` local, `AuthMiddleware` answers 401 `ErrMissingCredentialsResponse`
without validating any token and without calling the next handler; and
whenever it calls the next handler, the `authCookie` local holds the token that
`ValidateAuthCookie` accepted and the `user` local holds the account loaded for
the ID that validation returned. -/
theorem auth_missing_or_resolved (env : Env) (c : Ctx) :
    (c.cookies "auth" = [] → (∀ s, c.locals "authCookie" = some (.str s) → s = []) →
      (AuthMiddleware env c).flow = .done ∧
      (AuthMiddleware env c).ctx.resp.status = 401 ∧
      (AuthMiddleware env c).ctx.resp.body = some .ErrMissingCredentialsResponse ∧
      (AuthMiddleware env c).trace = []) ∧
    ((AuthMiddleware env c).flow = .next →
      ∃ token uid u, env.validateAuthCookie token c.ip false = .ok uid ∧
        env.dbFirst { ID := uid } = .ok u ∧
        validatedTokens (AuthMiddleware env c).trace = [token] ∧
        (AuthMiddleware env c).ctx.locals "user" = some (.user u) ∧
        (AuthMiddleware env c).ctx.locals "authCookie" = some (.str token)) := by
  have key : ∀ token, (authValidate env c token).flow = .next →
      ∃ uid u, env.validateAuthCookie token c.ip false = .ok uid ∧
        env.dbFirst { ID := uid } = .ok u ∧
        validatedTokens (authValidate env c token).trace = [token] ∧
        (authValidate env c token).ctx.locals "user" = some (.user u) ∧
        (authValidate env c token).ctx.locals "authCookie" = some (.str token) := by
    intro token h
    unfold authValidate at h ⊢
    cases hv : env.validateAuthCookie token c.ip false with
    | error e => rw [hv] at h; exact Flow.noConfusion h
    | ok uid =>
      rw [hv] at h
      simp only at h ⊢
      cases hdb : env.dbFirst { ID := uid } with
      | error e => rw [hdb] at h; exact Flow.noConfusion h
      | ok u => exact ⟨uid, u, rfl, hdb, rfl, by simp [Ctx.setLocal], by simp [Ctx.setLocal]⟩
  constructor
  · intro h0 hl
    unfold AuthMiddleware
    simp only [h0, if_true]
    split
    · rename_i s hs
      have := hl s hs
      simp [this, Ctx.reply]
    · simp [Ctx.reply]
  · intro h
    unfold AuthMiddleware at h ⊢
    by_cases h0 : c.cookies "auth" = []
    · simp only [h0, if_true] at h ⊢
      split at h
      · rename_i s hs
        by_cases hse : s = []
        · simp [hse] at h
        · simp only [hse, if_false] at h
          obtain ⟨uid, u, h1, h2, h3, h4, h5⟩ := key s h
          refine ⟨s, uid, u, h1, h2, ?_, ?_, ?_⟩ <;> simp only [hs, hse, if_false]
          · exact h3
          · exact h4
          · exact h5
      · exact Flow.noConfusion h
    · simp only [h0, if_false] at h ⊢
      obtain ⟨uid, u, h1, h2, h3, h4, h5⟩ := key _ h
      exact ⟨_, uid, u, h1, h2, h3, h4, h5⟩

theorem auth_missing_or_resolved_witness :
    ((AuthMiddleware sampleEnv emptyCtx).flow = .done ∧
      (AuthMiddleware sampleEnv emptyCtx).ctx.resp.status = 401 ∧
      (AuthMiddleware sampleEnv emptyCtx).ctx.resp.body = some .ErrMissingCredentialsResponse ∧
      (AuthMiddleware sampleEnv emptyCtx).trace = []) ∧
    (∃ token uid u,
      sampleEnv.validateAuthCookie token
        ({ emptyCtx with cookies := fun _ => [116, 111, 107] } : Ctx).ip false = .ok uid ∧
      sampleEnv.dbFirst { ID := uid } = .ok u ∧
      validatedTokens (AuthMiddleware sampleEnv
        { emptyCtx with cookies := fun _ => [116, 111, 107] }).trace = [token] ∧
      (AuthMiddleware sampleEnv
        { emptyCtx with cookies := fun _ => [116, 111, 107] }).ctx.locals "user"
          = some (.user u) ∧
      (AuthMiddleware sampleEnv
        { emptyCtx with cookies := fun _ => [116, 111, 107] }).ctx.locals "authCookie"
          = some (.str token)) :=
  ⟨(auth_missing_or_resolved sampleEnv emptyCtx).1 rfl (fun s h => by cases h),
   (auth_missing_or_resolved sampleEnv
      { emptyCtx with cookies := fun _ => [116, 111, 107] }).2 rfl⟩

/-- C14, what the code does where the claim (and the doc comment of
`ApiKeyMiddleware`) names `ErrMissingCredentialsResponse`: a request whose
effective API key is non-empty and differs from the configured key is denied
with status 401 and the body `ErrInvalidCredentialsResponse`. -/
theorem apiKey_wrong_key_body (env : Env) (c : Ctx)
    (hne : effectiveApiKey c ≠ []) (hbad : effectiveApiKey c ≠ env.apiKey) :
    (ApiKeyMiddleware env c).flow = .done ∧
    (ApiKeyMiddleware env c).ctx.resp.status = 401 ∧
    (ApiKeyMiddleware env c).ctx.resp.body = some .ErrInvalidCredentialsResponse ∧
    (ApiKeyMiddleware env c).ctx.resp.body ≠ some .ErrMissingCredentialsResponse := by
  unfold effectiveApiKey at hne hbad
  unfold ApiKeyMiddleware apiKeyCheck
  by_cases hq : c.query "apiKey" = []
  · simp only [hq, ne_eq, not_true_eq_false, if_false] at hne hbad
    simp only [hq, if_true, hne, if_false, hbad, ne_eq, not_false_eq_true]
    simp [Ctx.reply]
  · simp only [hq, ne_eq, not_false_eq_true, if_true] at hbad
    simp only [hq, if_false, hbad, ne_eq, not_false_eq_true, if_true]
    simp [Ctx.reply]

theorem apiKey_wrong_key_body_witness :
    (ApiKeyMiddleware sampleEnv { emptyCtx with query := fun _ => [120] }).flow = .done ∧
    (ApiKeyMiddleware sampleEnv { emptyCtx with query := fun _ => [120] }).ctx.resp.status
      = 401 ∧
    (ApiKeyMiddleware sampleEnv { emptyCtx with query := fun _ => [120] }).ctx.resp.body =
      some .ErrInvalidCredentialsResponse ∧
    (ApiKeyMiddleware sampleEnv { emptyCtx with query := fun _ => [120] }).ctx.resp.body ≠
      some .ErrMissingCredentialsResponse :=
  apiKey_wrong_key_body sampleEnv { emptyCtx with query := fun _ => [120] }
    (by decide) (by decide)

/-- C15, as stated, fails in its second part: the request
`language_xx, language_eng, language_kor, language_rus, language_spa` lists
four valid language tags, and both checks fail with
`ErrInvalidLanguageTagInUserUpdate`, not with
`ErrTooManyLanguageTagsInUserUpdate`. -/
theorem tagsChecks_tooMany_error_fails :
    3 < countValidLanguage [langXx, langEng, langKor, langRus, langSpa] ∧
    (UpdateUserRequest.TagsChecks (fun _ => false)
      ⟨[langXx, langEng, langKor, langRus, langSpa]⟩ taggedUser).1 =
        (false, some .ErrInvalidLanguageTagInUserUpdate) ∧
    (AddTagsRequest.TagsChecks (fun _ => false)
      ⟨[langXx, langEng, langKor, langRus, langSpa]⟩ taggedUser).1 =
        (false, some .ErrInvalidLanguageTagInUserUpdate) := by
  refine ⟨by decide, ?_, ?_⟩ <;> rfl

/-- C15, amended: whenever `UpdateUserRequest.TagsChecks` or
`AddTagsRequest.TagsChecks` returns `(true, nil)`, the resulting Tags hold at
most 3 tags with the `language_` lead; a request listing more than 3 valid
language tags and no invalid `language_` tag fails with
`ErrTooManyLanguageTagsInUserUpdate` and leaves the user unchanged; and any
request listing more than 3 valid language tags fails with an error and leaves
the user unchanged. -/
theorem tagsChecks_language_limit (IsStaff : User → Bool) (u : User) (tags : List GoString) :
    ((UpdateUserRequest.TagsChecks IsStaff ⟨tags⟩ u).1 = (true, none) →
      countLanguage (UpdateUserRequest.TagsChecks IsStaff ⟨tags⟩ u).2.Tags ≤ 3) ∧
    ((AddTagsRequest.TagsChecks IsStaff ⟨tags⟩ u).1 = (true, none) →
      countLanguage (AddTagsRequest.TagsChecks IsStaff ⟨tags⟩ u).2.Tags ≤ 3) ∧
    (3 < countValidLanguage tags →
      (∀ tag ∈ tags, HasPrefix tag languageLead = true → isValidLanguageTag tag = true) →
      UpdateUserRequest.TagsChecks IsStaff ⟨tags⟩ u =
        ((false, some .ErrTooManyLanguageTagsInUserUpdate), u) ∧
      AddTagsRequest.TagsChecks IsStaff ⟨tags⟩ u =
        ((false, some .ErrTooManyLanguageTagsInUserUpdate), u)) ∧
    (3 < countValidLanguage tags →
      (∃ err, UpdateUserRequest.TagsChecks IsStaff ⟨tags⟩ u = ((false, some err), u)) ∧
      (∃ err, AddTagsRequest.TagsChecks IsStaff ⟨tags⟩ u = ((false, some err), u))) := by
  have hlen : 3 < countValidLanguage tags → ¬ tags.length = 0 := by
    intro h h0
    rw [List.length_eq_zero.mp h0] at h
    simp [countValidLanguage] at h
  have limit : (UpdateUserRequest.TagsChecks IsStaff ⟨tags⟩ u).1 = (true, none) →
      countLanguage (UpdateUserRequest.TagsChecks IsStaff ⟨tags⟩ u).2.Tags ≤ 3 := by
    intro h
    unfold UpdateUserRequest.TagsChecks at h ⊢
    by_cases h0 : tags.length = 0
    · simp [h0] at h
    · simp only [h0, if_false] at h ⊢
      cases hloop : applyLoop (IsStaff u) tags 0 [] with
      | error err => rw [hloop] at h; simp at h
      | ok out =>
        have hc := applyLoop_count (IsStaff u) tags 0 [] out hloop (by omega)
        simp only [countLanguage_append, countLanguage_heldSystemTags]
        simp only [countLanguage, List.filter_nil, List.length_nil] at hc ⊢
        omega
  have tooMany : 3 < countValidLanguage tags →
      (∀ tag ∈ tags, HasPrefix tag languageLead = true → isValidLanguageTag tag = true) →
      UpdateUserRequest.TagsChecks IsStaff ⟨tags⟩ u =
        ((false, some .ErrTooManyLanguageTagsInUserUpdate), u) := by
    intro h hall
    have hcl : 3 < 0 + countLanguage tags := by
      have := countValidLanguage_le tags
      omega
    unfold UpdateUserRequest.TagsChecks
    simp only [hlen h, if_false, applyLoop_tooMany (IsStaff u) tags 0 [] hall (by omega) hcl]
  have fails : 3 < countValidLanguage tags →
      ∃ err, UpdateUserRequest.TagsChecks IsStaff ⟨tags⟩ u = ((false, some err), u) := by
    intro h
    obtain ⟨err, he⟩ := applyLoop_fails (IsStaff u) tags 0 [] (by omega) (by omega)
    refine ⟨err, ?_⟩
    unfold UpdateUserRequest.TagsChecks
    simp only [hlen h, if_false, he]
  refine ⟨limit, ?_, ?_, ?_⟩
  · rw [← tagsChecks_eq]; exact limit
  · intro h hall
    rw [← tagsChecks_eq]
    exact ⟨tooMany h hall, tooMany h hall⟩
  · intro h
    rw [← tagsChecks_eq]
    exact ⟨fails h, fails h⟩

theorem tagsChecks_language_limit_witness :
    countLanguage (UpdateUserRequest.TagsChecks (fun _ => false)
      ⟨[langEng, langKor]⟩ taggedUser).2.Tags ≤ 3 ∧
    countLanguage (AddTagsRequest.TagsChecks (fun _ => false)
      ⟨[langEng, langKor]⟩ taggedUser).2.Tags ≤ 3 ∧
    (UpdateUserRequest.TagsChecks (fun _ => false)
        ⟨[langEng, langKor, langRus, langSpa]⟩ taggedUser =
        ((false, some .ErrTooManyLanguageTagsInUserUpdate), taggedUser) ∧
      AddTagsRequest.TagsChecks (fun _ => false)
        ⟨[langEng, langKor, langRus, langSpa]⟩ taggedUser =
        ((false, some .ErrTooManyLanguageTagsInUserUpdate), taggedUser)) ∧
    ((∃ err, UpdateUserRequest.TagsChecks (fun _ => false)
        ⟨[langXx, langEng, langKor, langRus, langSpa]⟩ taggedUser =
          ((false, some err), taggedUser)) ∧
      (∃ err, AddTagsRequest.TagsChecks (fun _ => false)
        ⟨[langXx, langEng, langKor, langRus, langSpa]⟩ taggedUser =
          ((false, some err), taggedUser))) :=
  ⟨(tagsChecks_language_limit (fun _ => false) taggedUser [langEng, langKor]).1 rfl,
   (tagsChecks_language_limit (fun _ => false) taggedUser [langEng, langKor]).2.1 rfl,
   (tagsChecks_language_limit (fun _ => false) taggedUser
      [langEng, langKor, langRus, langSpa]).2.2.1 (by decide) (by decide),
   (tagsChecks_language_limit (fun _ => false) taggedUser
      [langXx, langEng, langKor, langRus, langSpa]).2.2.2 (by decide)⟩

/-- C16, what the code does where the claim expects the held tags minus the
requested language tags: for the user holding `system_x, language_eng,
language_kor`, the request `language_eng, language_kor` returns `(true, nil)`
and leaves `system_x, language_kor, system_x, language_eng` (both requested
tags remain and `system_x` is held twice) where the claim expects `system_x`;
and the request `system_x`, which names no language tag, leaves no tag at
all. -/
theorem removeTags_result :
    (RemoveTagsRequest.TagsChecks ⟨[langEng, langKor]⟩ taggedUser).1 = (true, none) ∧
    (RemoveTagsRequest.TagsChecks ⟨[langEng, langKor]⟩ taggedUser).2.Tags =
      [systemX, langKor, systemX, langEng] ∧
    tagsWithout [langEng, langKor] taggedUser.Tags = [systemX] ∧
    (RemoveTagsRequest.TagsChecks ⟨[systemX]⟩ taggedUser).1 = (true, none) ∧
    (RemoveTagsRequest.TagsChecks ⟨[systemX]⟩ taggedUser).2.Tags = [] ∧
    tagsWithout [systemX] taggedUser.Tags = [systemX, langEng, langKor] := by
  refine ⟨?_, ?_, ?_, ?_, ?_, ?_⟩ <;> rfl

/-- C17: for a requesting user whose DeveloperType is not `internal` and any
query parameters, if `getAvatars` does not answer 400 then the query it hands
to `Find` contains the condition `release_status = public` or the condition
`author_id = <the requester's ID>`; hence every avatar the query lists that
belongs to another author is public. -/
theorem getAvatars_public_or_own (IsStaff : User → Bool) (u : User) (c : Ctx) (q : AvatarQuery)
    (hdev : u.DeveloperType ≠ internalType)
    (hq : getAvatars IsStaff u c = .find q) :
    (Where.releaseStatus ReleaseStatusPublic ∈ q.wheres ∨ Where.authorId u.ID ∈ q.wheres) ∧
    (∀ (ilike : GoString → GoString → Bool) (a : Avatar), q.selects ilike a = true →
      a.AuthorID ≠ u.ID → a.ReleaseStatus = ReleaseStatusPublic) := by
  have key : Where.releaseStatus ReleaseStatusPublic ∈ q.wheres ∨
      Where.authorId u.ID ∈ q.wheres := by
    unfold getAvatars at hq
    cases h1 : readN c {} with
    | none => rw [h1] at hq; cases hq
    | some v1 =>
      rw [h1] at hq
      simp only at hq
      cases h2 : readOffset c v1 with
      | none => rw [h2] at hq; cases hq
      | some v2 =>
        rw [h2] at hq
        simp only at hq
        cases h3 : readSearch IsStaff u c v2 with
        | none => rw [h3] at hq; cases hq
        | some v3 =>
          rw [h3] at hq
          simp only at hq
          obtain ⟨a1, a2⟩ := readN_fields c {} v1 h1
          obtain ⟨b1, b2⟩ := readOffset_fields c v1 v2 h2
          obtain ⟨c1, c2⟩ := readSearch_fields IsStaff u c v2 v3 h3
          have g := readFilters_guarded u c v3 (by rw [c1, b1, a1]) (by rw [c2, b2, a2])
          by_cases hf : statusForbidden u (readFilters u c v3) = true
          · rw [if_pos hf] at hq; cases hq
          · rw [if_neg hf] at hq
            injection hq with hq
            subst hq
            simp only [List.mem_append]
            obtain ⟨gl, gp | ⟨-, gself⟩ | ghid⟩ := g
            · cases hlim : (readFilters u c v3).limitToReleaseStatus
              · exact Or.inr (Or.inl (searchWheres_self u _ (gl hlim)))
              · left; right
                simp [gp]
            · exact Or.inr (Or.inl (searchWheres_self u _ gself))
            · exact absurd (statusForbidden_hidden u _ hdev ghid) hf
  refine ⟨key, ?_⟩
  intro ilike a hsel hother
  unfold AvatarQuery.selects at hsel
  rw [List.all_eq_true] at hsel
  rcases key with h | h
  · have := hsel _ h
    simpa [Where.holds] using this
  · have := hsel _ h
    simp only [Where.holds, beq_iff_eq] at this
    exact absurd this hother

theorem getAvatars_public_or_own_witness :
    (Where.releaseStatus ReleaseStatusPublic ∈
        ({ wheres := [Where.releaseStatus ReleaseStatusPublic], shuffled := false,
           limit := 60, offset := 0 } : AvatarQuery).wheres ∨
      Where.authorId plainUser.ID ∈
        ({ wheres := [Where.releaseStatus ReleaseStatusPublic], shuffled := false,
           limit := 60, offset := 0 } : AvatarQuery).wheres) ∧
    (∀ (ilike : GoString → GoString → Bool) (a : Avatar),
      ({ wheres := [Where.releaseStatus ReleaseStatusPublic], shuffled := false,
         limit := 60, offset := 0 } : AvatarQuery).selects ilike a = true →
      a.AuthorID ≠ plainUser.ID → a.ReleaseStatus = ReleaseStatusPublic) :=
  getAvatars_public_or_own (fun _ => false) plainUser emptyCtx
    { wheres := [Where.releaseStatus ReleaseStatusPublic], shuffled := false,
      limit := 60, offset := 0 }
    (by decide) rfl

end Shoya
